import Mathlib

set_option maxRecDepth 4096

/-!
Verification of the UI Snapshot Model and Locator Engine of the
mcp-android-emulator server (src/index.ts).  The tools build their element
matching on inline JavaScript regular expressions executed in
`while ((match = regex.exec(xml)) !== null)` loops.  We embed the exact
regular expressions used by the source as sequences of items
(literals, character classes, greedy and lazy stars, optional groups)
together with a backtracking matcher that reproduces the JavaScript
leftmost-match, greedy-longest-first and lazy-shortest-first semantics,
and model each tool on top of the resulting scan.
-/

namespace AndroidMcp

/-- Case-sensitive prefix test on character lists. -/
def litPre : List Char → List Char → Bool
  | [], _ => true
  | _ :: _, [] => false
  | u :: us, s :: ss => (u == s) && litPre us ss

/-- ASCII case folding: the semantics of the JavaScript i flag on the
ASCII range, which is the range these dumps and queries use. -/
def lowerC (c : Char) : Char :=
  if 65 ≤ c.toNat ∧ c.toNat ≤ 90 then Char.ofNat (c.toNat + 32) else c

/-- Case-insensitive prefix test: the JavaScript i flag folds both sides
before comparing. -/
def ciPre : List Char → List Char → Bool
  | [], _ => true
  | _ :: _, [] => false
  | u :: us, s :: ss => (lowerC u == lowerC s) && ciPre us ss

/-- One item of a regular expression, covering exactly the constructs the
source patterns use: literals (case-sensitive and insensitive), a single
character of a class, greedy and lazy class stars, capturing class
stars and plusses, and the optional non-capturing group with one inner
capture used by extractUIFingerprint. -/
inductive RItem where
  | lit (u : List Char)
  | ilit (u : List Char)
  | cls (p : Char → Bool)
  | star (p : Char → Bool)
  | lazyStar (p : Char → Bool)
  | capStar (p : Char → Bool)
  | capPlus (p : Char → Bool)
  | optCap (pre : List Char) (p : Char → Bool) (post : List Char)

/-- Captured groups of one match, in group order; a skipped optional group
contributes none, matching the undefined entry of a JavaScript match. -/
abbrev Caps := List (Option (List Char))

/-- Length of the maximal run of class characters at the head of s. -/
def runLen (p : Char → Bool) (s : List Char) : Nat := (s.takeWhile p).length

/-- Backtracking matcher, anchored at the head of s.  Greedy stars try the
longest extent first and shrink on failure of the continuation; lazy stars
try the shortest first; an optional group first tries to take the group and
falls back to skipping it, exactly as a JavaScript engine does.  Returns
the captures and the remainder of the input after the match.  The fuel
argument makes the recursion structural; every recursive call is on the
tail of the item list, so a fuel of one more than the item count is never
exhausted. -/
def matchSeqF : Nat → List RItem → List Char → Option (Caps × List Char)
  | 0, _, _ => none
  | _ + 1, [], s => some ([], s)
  | fuel + 1, .lit u :: rest, s =>
      if litPre u s then matchSeqF fuel rest (s.drop u.length) else none
  | fuel + 1, .ilit u :: rest, s =>
      if ciPre u s then matchSeqF fuel rest (s.drop u.length) else none
  | fuel + 1, .cls p :: rest, s =>
      match s with
      | [] => none
      | c :: s' => if p c then matchSeqF fuel rest s' else none
  | fuel + 1, .star p :: rest, s =>
      (List.range (runLen p s + 1)).reverse.findSome? fun k =>
        matchSeqF fuel rest (s.drop k)
  | fuel + 1, .lazyStar p :: rest, s =>
      (List.range (runLen p s + 1)).findSome? fun k =>
        matchSeqF fuel rest (s.drop k)
  | fuel + 1, .capStar p :: rest, s =>
      (List.range (runLen p s + 1)).reverse.findSome? fun k =>
        (matchSeqF fuel rest (s.drop k)).map fun r =>
          (some (s.take k) :: r.1, r.2)
  | fuel + 1, .capPlus p :: rest, s =>
      (List.range (runLen p s)).reverse.findSome? fun j =>
        (matchSeqF fuel rest (s.drop (j + 1))).map fun r =>
          (some (s.take (j + 1)) :: r.1, r.2)
  | fuel + 1, .optCap pre p post :: rest, s =>
      let grp :=
        if litPre pre s then
          let s1 := s.drop pre.length
          (List.range (runLen p s1 + 1)).reverse.findSome? fun k =>
            if litPre post (s1.drop k) then
              (matchSeqF fuel rest ((s1.drop k).drop post.length)).map fun r =>
                (some (s1.take k) :: r.1, r.2)
            else none
        else none
      match grp with
      | some r => some r
      | none => (matchSeqF fuel rest s).map fun r => (none :: r.1, r.2)

/-- The matcher at its canonical fuel. -/
def matchSeq (its : List RItem) (s : List Char) : Option (Caps × List Char) :=
  matchSeqF (its.length + 1) its s

/-- The global-flag exec loop: scan left to right, at each position try an
anchored match; on success record the captures and resume after the match,
on failure advance one character.  The fuel argument bounds the recursion;
every pattern in the source contains the nonempty literal bounds= so every
match consumes input and a fuel of one more than the input length is never
exhausted. -/
def scanAux (its : List RItem) : Nat → List Char → List Caps
  | 0, _ => []
  | _ + 1, [] => []
  | fuel + 1, c :: cs =>
      match matchSeq its (c :: cs) with
      | some (caps, rem) => caps :: scanAux its fuel rem
      | none => scanAux its fuel cs

/-- All matches of the pattern over the input, in document order. -/
def execScan (its : List RItem) (s : List Char) : List Caps :=
  scanAux its (s.length + 1) s

/-- Character classes appearing in the source patterns. -/
def notQuote (c : Char) : Bool := c != '"'

def notGt (c : Char) : Bool := c != '>'

/-- The class \d, the decimal digits 0 to 9. -/
def digitC (c : Char) : Bool := 48 ≤ c.toNat && c.toNat ≤ 57

/-- The JavaScript dot: any character but a line terminator. -/
def jsDot (c : Char) : Bool :=
  !(c == '\n' || c == '\r' || c.toNat == 0x2028 || c.toNat == 0x2029)

/-- bounds="\[(\d+),(\d+)\]\[(\d+),(\d+)\]" - shared tail of every pattern
(case-sensitive variant, for the patterns compiled without the i flag). -/
def boundsTail : List RItem :=
  [.lit "bounds=\"[".data, .capPlus digitC, .lit ",".data, .capPlus digitC,
   .lit "][".data, .capPlus digitC, .lit ",".data, .capPlus digitC,
   .lit "]\"".data]

/-- The same tail for the patterns compiled with flags gi. -/
def boundsTailCI : List RItem :=
  [.ilit "bounds=\"[".data, .capPlus digitC, .ilit ",".data, .capPlus digitC,
   .ilit "][".data, .capPlus digitC, .ilit ",".data, .capPlus digitC,
   .ilit "]\"".data]

/-- get_all_text scan: /text="([^"]*)"[^>]*bounds="..."/g -/
def allTextItems : List RItem :=
  .lit "text=\"".data :: .capStar notQuote :: .lit "\"".data ::
    .star notGt :: boundsTail

/-- get_ui_tree scan: /text="([^"]*)".*?bounds="..."/g -/
def uiTreeItems : List RItem :=
  .lit "text=\"".data :: .capStar notQuote :: .lit "\"".data ::
    .lazyStar jsDot :: boundsTail

/-- tap_element exact branch: text="${escapedText}"[^>]*bounds="..." with
flags gi; the query text is regex-escaped by the source, hence a literal. -/
def tapExactItems (q : List Char) : List RItem :=
  .ilit "text=\"".data :: .ilit q :: .ilit "\"".data ::
    .star notGt :: boundsTailCI

/-- tap_element containment branch:
text="[^"]*${escapedText}[^"]*"[^>]*bounds="..." with flags gi. -/
def tapContainsItems (q : List Char) : List RItem :=
  .ilit "text=\"".data :: .star notQuote :: .ilit q :: .star notQuote ::
    .ilit "\"".data :: .star notGt :: boundsTailCI

/-- The resource-id query is spliced into the regex source with NO
escaping, so its characters are interpreted as pattern syntax.  We model
the two kinds of characters whose compiled behavior the development uses:
a dot compiles to the wildcard class, every non-special character to a
case-insensitive literal.  Queries holding any other special character
are kept out of this compilation altogether: the locators below answer
unmodeledRegex for them (see ridModeled). -/
def regexSpecial (c : Char) : Bool :=
  c == '.' || c == '*' || c == '+' || c == '?' || c == '^' || c == '$' ||
  c == '{' || c == '}' || c == '(' || c == ')' || c == '|' || c == '[' ||
  c == ']' || c == '\\'

/-- Compilation of one modeled resource-id query character. -/
def ridItem (c : Char) : RItem :=
  if c == '.' then .cls jsDot else .ilit [c]

/-- The regex fragment this embedding models for the unescaped resource-id
splice: every character of the query is a dot or a non-special character.
Outside this fragment the source still hands the query to
new RegExp(pattern, "gi") as pattern syntax, and construction raises a
SyntaxError, before any matching, whenever the spliced pattern is invalid:
a lone parenthesis in the query, for example, leaves an unterminated
group.  The locators below answer unmodeledRegex for every query outside
the fragment, keeping that throwing region apart from the structured
results. -/
def ridModeled (r : List Char) : Bool :=
  r.all fun c => c == '.' || !regexSpecial c

/-- tap_element resource-id branch:
resource-id="${resourceId}"[^>]*bounds="..." with flags gi. -/
def tapRidItems (r : List Char) : List RItem :=
  .ilit "resource-id=\"".data ::
    (r.map ridItem ++ (.ilit "\"".data :: .star notGt :: boundsTailCI))

/-- get_element_bounds text pattern:
text="[^"]*${escapedText}[^"]*".*?bounds="..." with flags gi. -/
def gebTextItems (q : List Char) : List RItem :=
  .ilit "text=\"".data :: .star notQuote :: .ilit q :: .star notQuote ::
    .ilit "\"".data :: .lazyStar jsDot :: boundsTailCI

/-- get_element_bounds resource-id pattern:
resource-id="${resourceId}".*?bounds="..." with flags gi. -/
def gebRidItems (r : List Char) : List RItem :=
  .ilit "resource-id=\"".data ::
    (r.map ridItem ++ (.ilit "\"".data :: .lazyStar jsDot :: boundsTailCI))

/-- extractUIFingerprint pattern:
(?:text="([^"]*)")?[^>]*(?:class="([^"]*)")?[^>]*bounds="..." with flag g. -/
def fingerItems : List RItem :=
  .optCap "text=\"".data notQuote "\"".data :: .star notGt ::
    .optCap "class=\"".data notQuote "\"".data :: .star notGt :: boundsTail

/-- parseInt applied by the source to the digit-only capture groups. -/
def parseIntDec (s : List Char) : Nat :=
  s.foldl (fun a c => 10 * a + (c.toNat - 48)) 0

/-- A parsed bounds quadruple. -/
structure Box where
  x1 : Nat
  y1 : Nat
  x2 : Nat
  y2 : Nat
deriving DecidableEq

/-- Shape adapter from the four digit captures of the tap and
get_element_bounds patterns to a Box; those patterns always produce
exactly this shape. -/
def boxOfCaps? : Caps → Option Box
  | [some a, some b, some c, some d] =>
      some ⟨parseIntDec a, parseIntDec b, parseIntDec c, parseIntDec d⟩
  | _ => none

/-- The matches array built by the while loops of tap_element and
get_element_bounds. -/
def boundsMatches (its : List RItem) (xml : List Char) : List Box :=
  (execScan its xml).filterMap boxOfCaps?

/-- Math.round(s / 2) for a natural number s: exact when s is even,
half rounds up when s is odd. -/
def jsRoundHalfNat (s : Nat) : Nat := (s + 1) / 2

/-- Outcome of tap_element and get_element_bounds.  crash records the
JavaScript TypeError raised by reading a property of matches[index] when
the index is out of the array (only reachable with a negative index,
since larger indices are guarded).  unmodeledRegex records a resource-id
query outside the modeled regex fragment of ridModeled: the source
compiles such a query as pattern syntax, and on the regex-invalid ones
(an unterminated group, say) new RegExp raises a SyntaxError before any
matching, so no structured result is returned there either. -/
inductive LocResult where
  | badQuery
  | notFound
  | outOfRange (matchCount : Nat)
  | found (matchCount : Nat) (index : Nat) (x y : Nat) (width height : Int)
      (centerX centerY : Nat)
  | crash
  | unmodeledRegex
deriving DecidableEq

/-- The success record the source builds from entry m of the matches
array: position and size of the bounds, and the center
Math.round((x1 + x2) / 2), Math.round((y1 + y2) / 2). -/
def foundResult (count i : Nat) (m : Box) : LocResult :=
  .found count i m.x1 m.y1 ((m.x2 : Int) - m.x1) ((m.y2 : Int) - m.y1)
    (jsRoundHalfNat (m.x1 + m.x2)) (jsRoundHalfNat (m.y1 + m.y2))

/-- The shared tail of tap_element and get_element_bounds: not-found on an
empty matches array, the index >= matches.length guard, then
matches[index]. -/
def selectMatch (ms : List Box) (index : Int) : LocResult :=
  if ms.length = 0 then .notFound
  else if (ms.length : Int) ≤ index then .outOfRange ms.length
  else
    match index with
    | .ofNat i =>
        match ms[i]? with
        | some m => foundResult ms.length i m
        | none => .crash
    | .negSucc _ => .crash

/-- JavaScript truthiness of an optional string argument: absent and empty
are both falsy. -/
def truthy : Option String → Bool
  | none => false
  | some s => s != ""

/-- get_element_bounds: text wins the pattern choice when both arguments
are given (if (text) ... else ...).  The text pattern is regex-escaped by
the source and always compiles; the resource-id branch splices the query
unescaped, so it is guarded by ridModeled, with unmodeledRegex standing
for the queries the source hands to new RegExp as unmodeled pattern
syntax (the regex-invalid ones raise SyntaxError there). -/
def get_element_bounds (xml : String) (text resourceId : Option String)
    (index : Int) : LocResult :=
  if !truthy text && !truthy resourceId then .badQuery
  else if truthy text then
    selectMatch (boundsMatches (gebTextItems (text.getD "").data) xml.data)
      index
  else if ridModeled (resourceId.getD "").data then
    selectMatch (boundsMatches (gebRidItems (resourceId.getD "").data)
      xml.data) index
  else .unmodeledRegex

/-- tap_element: resourceId wins the pattern choice when both arguments
are given (if (resourceId) ... else if (exact) ... else ...).  Both text
branches are regex-escaped by the source and always compile; the
resource-id branch splices the query unescaped and is guarded by
ridModeled exactly as in get_element_bounds. -/
def tap_element (xml : String) (text resourceId : Option String)
    (index : Int) (exact : Bool) : LocResult :=
  if !truthy text && !truthy resourceId then .badQuery
  else if truthy resourceId then
    if ridModeled (resourceId.getD "").data then
      selectMatch (boundsMatches (tapRidItems (resourceId.getD "").data)
        xml.data) index
    else .unmodeledRegex
  else if exact then
    selectMatch (boundsMatches (tapExactItems (text.getD "").data) xml.data)
      index
  else
    selectMatch (boundsMatches (tapContainsItems (text.getD "").data)
      xml.data) index

/-- is_element_visible: tries the text pattern first (non-global exec, so
only the leftmost match), then falls back to the resource-id pattern when
the text search found nothing.  The fallback splices the resource-id
query unescaped just as the two locators above do; the precedence
theorems proved about this function compare two calls that construct the
identical resource-id regex, so they are insensitive to where the query
falls relative to the modeled fragment. -/
def is_element_visible (xml : String) (text resourceId : Option String) :
    Option Box :=
  let fromText :=
    if truthy text then
      ((execScan (gebTextItems (text.getD "").data) xml.data).head?).bind
        boxOfCaps?
    else none
  match fromText with
  | some b => some b
  | none =>
      if truthy resourceId then
        ((execScan (gebRidItems (resourceId.getD "").data) xml.data).head?).bind
          boxOfCaps?
      else none

/-- Shape adapter for the get_all_text pattern: one text capture followed
by the four digit captures. -/
def textCap? : Caps → Option (List Char × Box)
  | [some t, some a, some b, some c, some d] =>
      some (t, ⟨parseIntDec a, parseIntDec b, parseIntDec c, parseIntDec d⟩)
  | _ => none

/-- The snapshot parser: the match-enumeration loop shared by get_all_text
(window-scoped [^>]* variant), returning the recognized elements in
document order, before any display sorting. -/
def parseSnapshot (xml : String) : List (List Char × Box) :=
  (execScan allTextItems xml.data).filterMap textCap?

/-- The matches of one occurrence of a well-formed bounds attribute,
independent of any other attribute: used to count bounds occurrences. -/
def boundsOnlyItems : List RItem := boundsTail

/-- Record builder of extractUIFingerprint: a record is emitted only when
the text or the class capture is defined and nonempty, and carries the
captured digit strings verbatim. -/
def fingerRecord? : Caps → Option String
  | [t?, c?, some a, some b, some c, some d] =>
      let t := t?.getD []
      let cl := c?.getD []
      if t ≠ [] ∨ cl ≠ [] then
        some ⟨t ++ "|".data ++ cl ++ "|".data ++ a ++ ",".data ++ b ++
          ",".data ++ c ++ ",".data ++ d⟩
      else none
  | _ => none

/-- Stable insertion into a sorted list of strings. -/
def insertSorted (x : String) : List String → List String
  | [] => [x]
  | y :: ys => if x ≤ y then x :: y :: ys else y :: insertSorted x ys

/-- Stable lexicographic sort; agrees with the JavaScript
Array.prototype.sort default comparator on strings (both produce the
lexicographically sorted, stable permutation). -/
def sortStrings : List String → List String
  | [] => []
  | x :: xs => insertSorted x (sortStrings xs)

/-- extractUIFingerprint: collect the records, sort them lexicographically
(JavaScript Array.prototype.sort default), join with newlines. -/
def extractUIFingerprint (xml : String) : String :=
  let elements := (execScan fingerItems xml.data).filterMap fingerRecord?
  String.intercalate "\n" (sortStrings elements)

/-- The polling loop of wait_for_ui_stable as a function of the sequence
of per-tick fingerprints (the list holds the fingerprints of the ticks
that fit inside the timeout).  State: lastFingerprint (initially the empty
string), stableCount (initially zero).  Returns the 1-based tick at which
the loop reports stability, or none when the ticks are exhausted
(timeout). -/
def stableTicks : List String → String → Nat → Nat → Option Nat
  | [], _, _, _ => none
  | fp :: rest, last, stableCount, tick =>
      if fp == last then
        if stableCount + 1 ≥ 2 then some tick
        else stableTicks rest last (stableCount + 1) (tick + 1)
      else stableTicks rest fp 0 (tick + 1)

/-- wait_for_ui_stable on the sequence of dumps observed at the poll
ticks. -/
def wait_for_ui_stable (dumps : List String) : Option Nat :=
  stableTicks (dumps.map extractUIFingerprint) "" 0 1

/-! Renderings of well-formed dump nodes, used to state the universal
properties of the scans.  The attribute layout follows the uiautomator
dump format the source parses: all attributes inside one tag, text before
bounds, the bounds value four decimal integers. -/

/-- The portion of a node from the quote closing its first attribute value
through the end of the tag. -/
def renderTail (d1 d2 d3 d4 : List Char) : List Char :=
  "\" bounds=\"[".data ++ d1 ++ ",".data ++ d2 ++ "][".data ++ d3 ++
    ",".data ++ d4 ++ "]\"/>".data

/-- A node carrying a text attribute and a bounds attribute. -/
def renderTextNode (t d1 d2 d3 d4 : List Char) : List Char :=
  "<node text=\"".data ++ (t ++ renderTail d1 d2 d3 d4)

/-- A node carrying a resource-id attribute and a bounds attribute. -/
def renderRidNode (v d1 d2 d3 d4 : List Char) : List Char :=
  "<node resource-id=\"".data ++ (v ++ renderTail d1 d2 d3 d4)

/-- A well-formed text node of a dump: its text and the four decimal
strings of its bounds attribute. -/
structure TextNode where
  t : List Char
  d1 : List Char
  d2 : List Char
  d3 : List Char
  d4 : List Char

/-- A whole dump made of text nodes. -/
def renderDump : List TextNode → List Char
  | [] => []
  | n :: l => renderTextNode n.t n.d1 n.d2 n.d3 n.d4 ++ renderDump l

/-- A character that can sit inside an attribute value without disturbing
the scans: folded to neither a quote, a closing angle bracket nor an
equals sign. -/
def benignChar (c : Char) : Bool :=
  !(lowerC c == '"' || lowerC c == '>' || lowerC c == '=')

/-- All characters benign. -/
def benignStr (l : List Char) : Prop := ∀ c ∈ l, benignChar c = true

/-- A nonempty all-digit string, as found inside a well-formed bounds
attribute. -/
def goodDigits (l : List Char) : Prop := l ≠ [] ∧ ∀ c ∈ l, digitC c = true

/-- Well-formedness of a rendered text node. -/
def wfTextNode (n : TextNode) : Prop :=
  benignStr n.t ∧ goodDigits n.d1 ∧ goodDigits n.d2 ∧ goodDigits n.d3 ∧
    goodDigits n.d4

instance (l : List Char) : Decidable (benignStr l) :=
  inferInstanceAs (Decidable (∀ c ∈ l, benignChar c = true))

instance (l : List Char) : Decidable (goodDigits l) :=
  inferInstanceAs (Decidable (l ≠ [] ∧ ∀ c ∈ l, digitC c = true))

instance (n : TextNode) : Decidable (wfTextNode n) :=
  inferInstanceAs (Decidable (_ ∧ _ ∧ _ ∧ _ ∧ _))

/-- Case-insensitive equality of two character lists. -/
def ciEq : List Char → List Char → Bool
  | [], [] => true
  | [], _ :: _ => false
  | _ :: _, [] => false
  | a :: as, b :: bs => (lowerC a == lowerC b) && ciEq as bs

/-! Concrete dumps used by the witnesses and counterexamples. -/

/-- A node whose bounds attribute is well formed but which carries no text
attribute. -/
def noTextDump : String := "<node bounds=\"[1,2][3,4]\"/>"

/-- Two nodes both with text OK. -/
def okDump : String :=
  "<node text=\"OK\" bounds=\"[0,0][10,10]\"/><node text=\"OK\" bounds=\"[0,20][10,30]\"/>"

/-- One node matching by text, one by resource-id, with different bounds. -/
def bothDump : String :=
  "<node text=\"q\" bounds=\"[0,0][2,2]\"/><node resource-id=\"r\" bounds=\"[10,10][20,20]\"/>"

/-- The end-to-end dump of the specification. -/
def submitDump : String := "<node text=\"Submit\" bounds=\"[100,200][300,250]\"/>"

/-- A node whose resource-id is aXb. -/
def ridDump : String := "<node resource-id=\"aXb\" bounds=\"[1,2][3,4]\"/>"

/-- A node whose resource-id is a single lowercase a. -/
def ridLowerDump : String := "<node resource-id=\"a\" bounds=\"[1,2][3,4]\"/>"

/-- A standard node dump with text, class and bounds. -/
def fpDumpA : String := "<node text=\"a\" class=\"c\" bounds=\"[1,2][3,4]\"/>"

/-- The same node with one bounds coordinate changed by one unit. -/
def fpDumpB : String := "<node text=\"a\" class=\"c\" bounds=\"[1,2][3,5]\"/>"

/-- Bare attribute pairs (no node tags), on which the fingerprint scan does
capture text; used to drive the stability loop with distinct
fingerprints. -/
def bareDumpA : String := "text=\"a\" bounds=\"[1,2][3,4]\""

def bareDumpB : String := "text=\"b\" bounds=\"[1,2][3,4]\""

/-! ## Basic lemmas about the tools -/

theorem truthy_some_of_ne (q : String) (hq : q ≠ "") : truthy (some q) = true := by
  simp [truthy, hq]

theorem truthy_none : truthy none = false := rfl

theorem geb_text_eq (xml q : String) (hq : q ≠ "") (rid : Option String)
    (i : Int) :
    get_element_bounds xml (some q) rid i =
      selectMatch (boundsMatches (gebTextItems q.data) xml.data) i := by
  simp [get_element_bounds, truthy_some_of_ne q hq]

theorem geb_rid_eq (xml r : String) (hr : r ≠ "")
    (hm : ridModeled r.data = true) (i : Int) :
    get_element_bounds xml none (some r) i =
      selectMatch (boundsMatches (gebRidItems r.data) xml.data) i := by
  simp [get_element_bounds, truthy_none, truthy_some_of_ne r hr, hm]

theorem tap_rid_shape (xml r : String) (hr : r ≠ "") (text : Option String)
    (i : Int) (e : Bool) :
    tap_element xml text (some r) i e =
      (if ridModeled r.data then
        selectMatch (boundsMatches (tapRidItems r.data) xml.data) i
      else .unmodeledRegex) := by
  simp [tap_element, truthy_some_of_ne r hr]

theorem tap_rid_eq (xml r : String) (hr : r ≠ "")
    (hm : ridModeled r.data = true) (text : Option String)
    (i : Int) (e : Bool) :
    tap_element xml text (some r) i e =
      selectMatch (boundsMatches (tapRidItems r.data) xml.data) i := by
  rw [tap_rid_shape xml r hr text i e, if_pos hm]

theorem tap_exact_eq (xml q : String) (hq : q ≠ "") (i : Int) :
    tap_element xml (some q) none i true =
      selectMatch (boundsMatches (tapExactItems q.data) xml.data) i := by
  simp [tap_element, truthy_none, truthy_some_of_ne q hq]

theorem tap_contains_eq (xml q : String) (hq : q ≠ "") (i : Int) :
    tap_element xml (some q) none i false =
      selectMatch (boundsMatches (tapContainsItems q.data) xml.data) i := by
  simp [tap_element, truthy_none, truthy_some_of_ne q hq]

theorem selectMatch_found (ms : List Box) (i : Nat) (hi : i < ms.length) :
    selectMatch ms (i : Int) = foundResult ms.length i ms[i] := by
  have hnot : ¬((ms.length : Int) ≤ (i : Int)) := by
    exact_mod_cast Nat.not_le.mpr hi
  unfold selectMatch
  rw [if_neg (by omega), if_neg hnot]
  show (match ms[i]? with
    | some m => foundResult ms.length i m
    | none => LocResult.crash) = _
  rw [List.getElem?_eq_getElem hi]

theorem selectMatch_outOfRange (ms : List Box) (i : Int)
    (hpos : 0 < ms.length) (hi : (ms.length : Int) ≤ i) :
    selectMatch ms i = .outOfRange ms.length := by
  unfold selectMatch
  rw [if_neg (by omega), if_pos hi]

theorem selectMatch_neg_crash (ms : List Box) (i : Int)
    (hpos : 0 < ms.length) (hi : i < 0) :
    selectMatch ms i = .crash := by
  obtain ⟨j, hj⟩ : ∃ j, i = Int.negSucc j := by
    cases i with
    | ofNat j => exact absurd hi (not_lt.mpr (Int.ofNat_nonneg j))
    | negSucc j => exact ⟨j, rfl⟩
  subst hj
  have hns : Int.negSucc j < 0 := Int.negSucc_lt_zero j
  unfold selectMatch
  rw [if_neg (by omega), if_neg (by omega)]

theorem selectMatch_ne_crash (ms : List Box) (i : Int) (hi : 0 ≤ i) :
    selectMatch ms i ≠ .crash := by
  obtain ⟨j, hj⟩ := Int.eq_ofNat_of_zero_le hi
  subst hj
  unfold selectMatch
  by_cases h0 : ms.length = 0
  · rw [if_pos h0]; simp
  · rw [if_neg h0]
    by_cases hle : (ms.length : Int) ≤ (j : Int)
    · rw [if_pos hle]; simp
    · rw [if_neg hle]
      have hj' : j < ms.length := by exact_mod_cast not_le.mp hle
      show (match ms[j]? with
        | some m => foundResult ms.length j m
        | none => LocResult.crash) ≠ _
      rw [List.getElem?_eq_getElem hj']
      simp [foundResult]

theorem selectMatch_ne_unmodeled (ms : List Box) (i : Int) :
    selectMatch ms i ≠ .unmodeledRegex := by
  unfold selectMatch
  by_cases h0 : ms.length = 0
  · rw [if_pos h0]; simp
  · rw [if_neg h0]
    by_cases hle : (ms.length : Int) ≤ i
    · rw [if_pos hle]; simp
    · rw [if_neg hle]
      cases i with
      | ofNat j =>
          show (match ms[j]? with
            | some m => foundResult ms.length j m
            | none => LocResult.crash) ≠ _
          cases ms[j]? with
          | none => simp
          | some m => simp [foundResult]
      | negSucc j =>
          show LocResult.crash ≠ _
          simp

/-! ## Engine step equations

matchSeq at its canonical fuel unfolds one item at a time; each equation
holds definitionally because the fuel of the recursive call is again one
more than the length of the remaining item list. -/

theorem matchSeq_nil_items (s : List Char) : matchSeq [] s = some ([], s) :=
  rfl

theorem matchSeq_lit (u : List Char) (rest : List RItem) (s : List Char) :
    matchSeq (.lit u :: rest) s =
      if litPre u s then matchSeq rest (s.drop u.length) else none := rfl

theorem matchSeq_ilit (u : List Char) (rest : List RItem) (s : List Char) :
    matchSeq (.ilit u :: rest) s =
      if ciPre u s then matchSeq rest (s.drop u.length) else none := rfl

theorem matchSeq_cls (p : Char → Bool) (rest : List RItem) (c : Char)
    (s : List Char) :
    matchSeq (.cls p :: rest) (c :: s) =
      if p c then matchSeq rest s else none := rfl

theorem matchSeq_cls_nil (p : Char → Bool) (rest : List RItem) :
    matchSeq (.cls p :: rest) [] = none := rfl

theorem matchSeq_star (p : Char → Bool) (rest : List RItem) (s : List Char) :
    matchSeq (.star p :: rest) s =
      (List.range (runLen p s + 1)).reverse.findSome? fun k =>
        matchSeq rest (s.drop k) := rfl

theorem matchSeq_lazyStar (p : Char → Bool) (rest : List RItem)
    (s : List Char) :
    matchSeq (.lazyStar p :: rest) s =
      (List.range (runLen p s + 1)).findSome? fun k =>
        matchSeq rest (s.drop k) := rfl

theorem matchSeq_capStar (p : Char → Bool) (rest : List RItem)
    (s : List Char) :
    matchSeq (.capStar p :: rest) s =
      (List.range (runLen p s + 1)).reverse.findSome? fun k =>
        (matchSeq rest (s.drop k)).map fun r =>
          (some (s.take k) :: r.1, r.2) := rfl

theorem matchSeq_capPlus (p : Char → Bool) (rest : List RItem)
    (s : List Char) :
    matchSeq (.capPlus p :: rest) s =
      (List.range (runLen p s)).reverse.findSome? fun j =>
        (matchSeq rest (s.drop (j + 1))).map fun r =>
          (some (s.take (j + 1)) :: r.1, r.2) := rfl

/-! ## Generic lemmas about the greedy descent -/

theorem findSome?_range_rev_succ {α : Type} (f : Nat → Option α) (n : Nat) :
    ((List.range (n + 1)).reverse).findSome? f =
      match f n with
      | some r => some r
      | none => ((List.range n).reverse).findSome? f := by
  rw [List.range_succ, List.reverse_append]
  rfl

theorem findSome?_range_rev_skip {α : Type} (f : Nat → Option α) (n k : Nat)
    (hk : k ≤ n) (h : ∀ j, k < j → j ≤ n → f j = none) :
    ((List.range (n + 1)).reverse).findSome? f =
      ((List.range (k + 1)).reverse).findSome? f := by
  induction n with
  | zero =>
      have : k = 0 := by omega
      subst this; rfl
  | succ n ih =>
      by_cases hkn : k = n + 1
      · subst hkn; rfl
      · have hk2 : k ≤ n := by omega
        rw [findSome?_range_rev_succ, h (n + 1) (by omega) le_rfl]
        exact ih hk2 fun j h1 h2 => h j h1 (by omega)

/-! ## Prefix and run lemmas -/

theorem litPre_append_self (u v : List Char) : litPre u (u ++ v) = true := by
  induction u with
  | nil => rfl
  | cons c cs ih => simp [litPre, ih]

theorem ciPre_append_self (u v : List Char) : ciPre u (u ++ v) = true := by
  induction u with
  | nil => rfl
  | cons c cs ih => simp [ciPre, ih]

theorem matchSeq_lit_append (u : List Char) (rest : List RItem)
    (v : List Char) :
    matchSeq (.lit u :: rest) (u ++ v) = matchSeq rest v := by
  rw [matchSeq_lit, if_pos (litPre_append_self u v), List.drop_left]

theorem matchSeq_ilit_append (u : List Char) (rest : List RItem)
    (v : List Char) :
    matchSeq (.ilit u :: rest) (u ++ v) = matchSeq rest v := by
  rw [matchSeq_ilit, if_pos (ciPre_append_self u v), List.drop_left]

theorem matchSeq_lit_head_ne (c0 : Char) (u : List Char) (rest : List RItem)
    (c : Char) (s : List Char) (h : (c0 == c) = false) :
    matchSeq (.lit (c0 :: u) :: rest) (c :: s) = none := by
  rw [matchSeq_lit, if_neg]
  simp [litPre, h]

theorem matchSeq_ilit_head_ne (c0 : Char) (u : List Char) (rest : List RItem)
    (c : Char) (s : List Char) (h : (lowerC c0 == lowerC c) = false) :
    matchSeq (.ilit (c0 :: u) :: rest) (c :: s) = none := by
  rw [matchSeq_ilit, if_neg]
  simp [ciPre, h]

theorem matchSeq_lit_at_nil (c0 : Char) (u : List Char) (rest : List RItem) :
    matchSeq (.lit (c0 :: u) :: rest) [] = none := by
  rw [matchSeq_lit, if_neg]
  simp [litPre]

theorem matchSeq_ilit_at_nil (c0 : Char) (u : List Char)
    (rest : List RItem) :
    matchSeq (.ilit (c0 :: u) :: rest) [] = none := by
  rw [matchSeq_ilit, if_neg]
  simp [ciPre]

theorem runLen_append_stop (p : Char → Bool) (t : List Char) (c0 : Char)
    (v : List Char) (ht : ∀ c ∈ t, p c = true) (hc : p c0 = false) :
    runLen p (t ++ c0 :: v) = t.length := by
  induction t with
  | nil => simp [runLen, List.takeWhile, hc]
  | cons a as ih =>
      have ha : p a = true := ht a (by simp)
      have ih2 := ih fun c hcm => ht c (by simp [hcm])
      simp only [runLen, List.cons_append, List.takeWhile] at ih2 ⊢
      simp [ha, ih2]

/-! ## Hit lemmas: one item consumed against input in split form -/

theorem matchSeq_capStar_exact (p : Char → Bool) (rest : List RItem)
    (t : List Char) (c0 : Char) (v : List Char) (r : Caps × List Char)
    (ht : ∀ c ∈ t, p c = true) (hc : p c0 = false)
    (h : matchSeq rest (c0 :: v) = some r) :
    matchSeq (.capStar p :: rest) (t ++ c0 :: v) =
      some (some t :: r.1, r.2) := by
  rw [matchSeq_capStar, runLen_append_stop p t c0 v ht hc,
    findSome?_range_rev_succ]
  simp only [List.drop_left, List.take_left, h]
  rfl

theorem matchSeq_capPlus_exact (p : Char → Bool) (rest : List RItem)
    (t : List Char) (c0 : Char) (v : List Char) (r : Caps × List Char)
    (htne : t ≠ []) (ht : ∀ c ∈ t, p c = true) (hc : p c0 = false)
    (h : matchSeq rest (c0 :: v) = some r) :
    matchSeq (.capPlus p :: rest) (t ++ c0 :: v) =
      some (some t :: r.1, r.2) := by
  rw [matchSeq_capPlus, runLen_append_stop p t c0 v ht hc]
  obtain ⟨m, hm⟩ : ∃ m, t.length = m + 1 := by
    cases t with
    | nil => exact absurd rfl htne
    | cons a as => exact ⟨as.length, rfl⟩
  rw [hm, findSome?_range_rev_succ, ← hm]
  simp only [List.drop_left, List.take_left, h]
  rfl

theorem matchSeq_star_hit (p : Char → Bool) (rest : List RItem)
    (s : List Char) (k : Nat) (r : Caps × List Char) (hk : k ≤ runLen p s)
    (hfail : ∀ j, k < j → j ≤ runLen p s → matchSeq rest (s.drop j) = none)
    (hhit : matchSeq rest (s.drop k) = some r) :
    matchSeq (.star p :: rest) s = some r := by
  rw [matchSeq_star,
    findSome?_range_rev_skip (fun k => matchSeq rest (s.drop k))
      (runLen p s) k hk hfail,
    findSome?_range_rev_succ, hhit]

/-! ## Character facts -/

theorem lowerC_digit (c : Char) (h : digitC c = true) : lowerC c = c := by
  simp only [digitC, Bool.and_eq_true, decide_eq_true_eq] at h
  unfold lowerC
  rw [if_neg (by omega)]

theorem digit_ne_char (c : Char) (h : digitC c = true) (d : Char)
    (hd : digitC d = false) : (d == c) = false := by
  rw [beq_eq_false_iff_ne]
  intro he
  rw [he] at hd
  rw [hd] at h
  exact absurd h (by simp)

theorem notGt_of_digit (c : Char) (h : digitC c = true) : notGt c = true := by
  have : (('>' : Char) == c) = false := digit_ne_char c h '>' (by decide)
  simp only [notGt, bne, Bool.not_eq_true']
  rw [beq_eq_false_iff_ne] at this ⊢
  exact fun he => this he.symm

theorem notQuote_of_digit (c : Char) (h : digitC c = true) :
    notQuote c = true := by
  have : (('"' : Char) == c) = false := digit_ne_char c h '"' (by decide)
  simp only [notQuote, bne, Bool.not_eq_true']
  rw [beq_eq_false_iff_ne] at this ⊢
  exact fun he => this he.symm

theorem benign_notQuote (c : Char) (h : benignChar c = true) :
    notQuote c = true := by
  simp only [notQuote, bne, Bool.not_eq_true']
  rw [beq_eq_false_iff_ne]
  intro he
  subst he
  exact absurd h (by decide)

theorem benign_notGt (c : Char) (h : benignChar c = true) :
    notGt c = true := by
  simp only [notGt, bne, Bool.not_eq_true']
  rw [beq_eq_false_iff_ne]
  intro he
  subst he
  exact absurd h (by decide)

/-! ## Scan lemmas -/

theorem scanAux_nil_str (its : List RItem) (fuel : Nat) :
    scanAux its fuel [] = [] := by
  cases fuel <;> rfl

theorem scanAux_none (its : List RItem) (fuel : Nat) (c : Char)
    (cs : List Char) (h : matchSeq its (c :: cs) = none) :
    scanAux its (fuel + 1) (c :: cs) = scanAux its fuel cs := by
  simp [scanAux, h]

theorem scanAux_some (its : List RItem) (fuel : Nat) (s : List Char)
    (caps : Caps) (rem : List Char) (hs : s ≠ [])
    (h : matchSeq its s = some (caps, rem)) :
    scanAux its (fuel + 1) s = caps :: scanAux its fuel rem := by
  cases s with
  | nil => exact absurd rfl hs
  | cons c cs => simp [scanAux, h]

theorem scanAux_skip (its : List RItem) (junk s : List Char) (fuel : Nat)
    (hfail : ∀ j, j < junk.length → matchSeq its (junk.drop j ++ s) = none)
    (hf : junk.length ≤ fuel) :
    scanAux its fuel (junk ++ s) = scanAux its (fuel - junk.length) s := by
  induction junk generalizing fuel with
  | nil => simp
  | cons c cs ih =>
      cases fuel with
      | zero => simp at hf
      | succ f =>
          have h0 := hfail 0 (by simp)
          simp only [List.drop_zero] at h0
          rw [List.cons_append,
            scanAux_none its f c (cs ++ s) (by simpa using h0)]
          have step := ih f (fun j hj => by
              simpa using hfail (j + 1) (by simpa using hj))
            (by simpa using hf)
          simpa using step

theorem scanAux_of_suffix_fail (its : List RItem) (s : List Char)
    (h : ∀ c cs, (c :: cs) <:+ s → matchSeq its (c :: cs) = none) :
    ∀ fuel, scanAux its fuel s = [] := by
  induction s with
  | nil => intro fuel; exact scanAux_nil_str its fuel
  | cons c cs ih =>
      intro fuel
      cases fuel with
      | zero => rfl
      | succ f =>
          rw [scanAux_none its f c cs (h c cs (List.suffix_refl _))]
          exact ih
            (fun c2 cs2 hsuf => h c2 cs2 (hsuf.trans (List.suffix_cons c cs)))
            f

/-! ## The rendered bounds segment and its match -/

theorem renderTail_append (d1 d2 d3 d4 w : List Char) :
    renderTail d1 d2 d3 d4 ++ w =
      '"' :: ' ' :: 'b' :: 'o' :: 'u' :: 'n' :: 'd' :: 's' :: '=' :: '"' ::
        '[' :: (d1 ++ ',' :: (d2 ++ ']' :: '[' :: (d3 ++ ',' :: (d4 ++
          ']' :: '"' :: '/' :: '>' :: w)))) := by
  show (['"', ' ', 'b', 'o', 'u', 'n', 'd', 's', '=', '"', '['] ++ d1 ++
      [','] ++ d2 ++ [']', '['] ++ d3 ++ [','] ++ d4 ++
      [']', '"', '/', '>']) ++ w = _
  simp [List.append_assoc]

theorem matchSeq_boundsTail (d1 d2 d3 d4 w : List Char)
    (h1 : goodDigits d1) (h2 : goodDigits d2) (h3 : goodDigits d3)
    (h4 : goodDigits d4) :
    matchSeq boundsTail
        ('b' :: 'o' :: 'u' :: 'n' :: 'd' :: 's' :: '=' :: '"' :: '[' ::
          (d1 ++ ',' :: (d2 ++ ']' :: '[' :: (d3 ++ ',' :: (d4 ++
            ']' :: '"' :: w))))) =
      some ([some d1, some d2, some d3, some d4], w) := by
  have t8 : matchSeq [.lit "]\"".data] (']' :: '"' :: w) = some ([], w) := by
    show matchSeq [.lit "]\"".data] ("]\"".data ++ w) = _
    rw [matchSeq_lit_append]
    exact matchSeq_nil_items w
  have t7 : matchSeq (.capPlus digitC :: [.lit "]\"".data])
      (d4 ++ ']' :: '"' :: w) = some ([some d4], w) := by
    simpa using matchSeq_capPlus_exact digitC [.lit "]\"".data] d4 ']'
      ('"' :: w) ([], w) h4.1 h4.2 (by decide) t8
  have t6 : matchSeq (.lit ",".data :: .capPlus digitC :: [.lit "]\"".data])
      (',' :: (d4 ++ ']' :: '"' :: w)) = some ([some d4], w) := by
    show matchSeq _ (",".data ++ (d4 ++ ']' :: '"' :: w)) = _
    rw [matchSeq_lit_append]
    exact t7
  have t5 : matchSeq (.capPlus digitC :: .lit ",".data :: .capPlus digitC ::
      [.lit "]\"".data]) (d3 ++ ',' :: (d4 ++ ']' :: '"' :: w)) =
      some ([some d3, some d4], w) := by
    simpa using matchSeq_capPlus_exact digitC
      (.lit ",".data :: .capPlus digitC :: [.lit "]\"".data]) d3 ','
      (d4 ++ ']' :: '"' :: w) ([some d4], w) h3.1 h3.2 (by decide) t6
  have t4 : matchSeq (.lit "][".data :: .capPlus digitC :: .lit ",".data ::
      .capPlus digitC :: [.lit "]\"".data])
      (']' :: '[' :: (d3 ++ ',' :: (d4 ++ ']' :: '"' :: w))) =
      some ([some d3, some d4], w) := by
    show matchSeq _ ("][".data ++ (d3 ++ ',' :: (d4 ++ ']' :: '"' :: w))) = _
    rw [matchSeq_lit_append]
    exact t5
  have t3 : matchSeq (.capPlus digitC :: .lit "][".data :: .capPlus digitC ::
      .lit ",".data :: .capPlus digitC :: [.lit "]\"".data])
      (d2 ++ ']' :: '[' :: (d3 ++ ',' :: (d4 ++ ']' :: '"' :: w))) =
      some ([some d2, some d3, some d4], w) := by
    simpa using matchSeq_capPlus_exact digitC
      (.lit "][".data :: .capPlus digitC :: .lit ",".data ::
        .capPlus digitC :: [.lit "]\"".data]) d2 ']'
      ('[' :: (d3 ++ ',' :: (d4 ++ ']' :: '"' :: w))) ([some d3, some d4], w)
      h2.1 h2.2 (by decide) t4
  have t2 : matchSeq (.lit ",".data :: .capPlus digitC :: .lit "][".data ::
      .capPlus digitC :: .lit ",".data :: .capPlus digitC ::
      [.lit "]\"".data])
      (',' :: (d2 ++ ']' :: '[' :: (d3 ++ ',' :: (d4 ++ ']' :: '"' :: w)))) =
      some ([some d2, some d3, some d4], w) := by
    show matchSeq _ (",".data ++ (d2 ++ ']' :: '[' ::
      (d3 ++ ',' :: (d4 ++ ']' :: '"' :: w)))) = _
    rw [matchSeq_lit_append]
    exact t3
  have t1 : matchSeq (.capPlus digitC :: .lit ",".data :: .capPlus digitC ::
      .lit "][".data :: .capPlus digitC :: .lit ",".data ::
      .capPlus digitC :: [.lit "]\"".data])
      (d1 ++ ',' :: (d2 ++ ']' :: '[' :: (d3 ++ ',' :: (d4 ++
        ']' :: '"' :: w)))) =
      some ([some d1, some d2, some d3, some d4], w) := by
    simpa using matchSeq_capPlus_exact digitC
      (.lit ",".data :: .capPlus digitC :: .lit "][".data ::
        .capPlus digitC :: .lit ",".data :: .capPlus digitC ::
        [.lit "]\"".data]) d1 ','
      (d2 ++ ']' :: '[' :: (d3 ++ ',' :: (d4 ++ ']' :: '"' :: w)))
      ([some d2, some d3, some d4], w) h1.1 h1.2 (by decide) t2
  show matchSeq boundsTail ("bounds=\"[".data ++ (d1 ++ ',' :: (d2 ++
    ']' :: '[' :: (d3 ++ ',' :: (d4 ++ ']' :: '"' :: w))))) = _
  unfold boundsTail
  rw [matchSeq_lit_append]
  exact t1

theorem matchSeq_boundsTailCI (d1 d2 d3 d4 w : List Char)
    (h1 : goodDigits d1) (h2 : goodDigits d2) (h3 : goodDigits d3)
    (h4 : goodDigits d4) :
    matchSeq boundsTailCI
        ('b' :: 'o' :: 'u' :: 'n' :: 'd' :: 's' :: '=' :: '"' :: '[' ::
          (d1 ++ ',' :: (d2 ++ ']' :: '[' :: (d3 ++ ',' :: (d4 ++
            ']' :: '"' :: w))))) =
      some ([some d1, some d2, some d3, some d4], w) := by
  have t8 : matchSeq [.ilit "]\"".data] (']' :: '"' :: w) = some ([], w) := by
    show matchSeq [.ilit "]\"".data] ("]\"".data ++ w) = _
    rw [matchSeq_ilit_append]
    exact matchSeq_nil_items w
  have t7 : matchSeq (.capPlus digitC :: [.ilit "]\"".data])
      (d4 ++ ']' :: '"' :: w) = some ([some d4], w) := by
    simpa using matchSeq_capPlus_exact digitC [.ilit "]\"".data] d4 ']'
      ('"' :: w) ([], w) h4.1 h4.2 (by decide) t8
  have t6 : matchSeq (.ilit ",".data :: .capPlus digitC :: [.ilit "]\"".data])
      (',' :: (d4 ++ ']' :: '"' :: w)) = some ([some d4], w) := by
    show matchSeq _ (",".data ++ (d4 ++ ']' :: '"' :: w)) = _
    rw [matchSeq_ilit_append]
    exact t7
  have t5 : matchSeq (.capPlus digitC :: .ilit ",".data :: .capPlus digitC ::
      [.ilit "]\"".data]) (d3 ++ ',' :: (d4 ++ ']' :: '"' :: w)) =
      some ([some d3, some d4], w) := by
    simpa using matchSeq_capPlus_exact digitC
      (.ilit ",".data :: .capPlus digitC :: [.ilit "]\"".data]) d3 ','
      (d4 ++ ']' :: '"' :: w) ([some d4], w) h3.1 h3.2 (by decide) t6
  have t4 : matchSeq (.ilit "][".data :: .capPlus digitC :: .ilit ",".data ::
      .capPlus digitC :: [.ilit "]\"".data])
      (']' :: '[' :: (d3 ++ ',' :: (d4 ++ ']' :: '"' :: w))) =
      some ([some d3, some d4], w) := by
    show matchSeq _ ("][".data ++ (d3 ++ ',' :: (d4 ++ ']' :: '"' :: w))) = _
    rw [matchSeq_ilit_append]
    exact t5
  have t3 : matchSeq (.capPlus digitC :: .ilit "][".data :: .capPlus digitC ::
      .ilit ",".data :: .capPlus digitC :: [.ilit "]\"".data])
      (d2 ++ ']' :: '[' :: (d3 ++ ',' :: (d4 ++ ']' :: '"' :: w))) =
      some ([some d2, some d3, some d4], w) := by
    simpa using matchSeq_capPlus_exact digitC
      (.ilit "][".data :: .capPlus digitC :: .ilit ",".data ::
        .capPlus digitC :: [.ilit "]\"".data]) d2 ']'
      ('[' :: (d3 ++ ',' :: (d4 ++ ']' :: '"' :: w))) ([some d3, some d4], w)
      h2.1 h2.2 (by decide) t4
  have t2 : matchSeq (.ilit ",".data :: .capPlus digitC :: .ilit "][".data ::
      .capPlus digitC :: .ilit ",".data :: .capPlus digitC ::
      [.ilit "]\"".data])
      (',' :: (d2 ++ ']' :: '[' :: (d3 ++ ',' :: (d4 ++ ']' :: '"' :: w)))) =
      some ([some d2, some d3, some d4], w) := by
    show matchSeq _ (",".data ++ (d2 ++ ']' :: '[' ::
      (d3 ++ ',' :: (d4 ++ ']' :: '"' :: w)))) = _
    rw [matchSeq_ilit_append]
    exact t3
  have t1 : matchSeq (.capPlus digitC :: .ilit ",".data :: .capPlus digitC ::
      .ilit "][".data :: .capPlus digitC :: .ilit ",".data ::
      .capPlus digitC :: [.ilit "]\"".data])
      (d1 ++ ',' :: (d2 ++ ']' :: '[' :: (d3 ++ ',' :: (d4 ++
        ']' :: '"' :: w)))) =
      some ([some d1, some d2, some d3, some d4], w) := by
    simpa using matchSeq_capPlus_exact digitC
      (.ilit ",".data :: .capPlus digitC :: .ilit "][".data ::
        .capPlus digitC :: .ilit ",".data :: .capPlus digitC ::
        [.ilit "]\"".data]) d1 ','
      (d2 ++ ']' :: '[' :: (d3 ++ ',' :: (d4 ++ ']' :: '"' :: w)))
      ([some d2, some d3, some d4], w) h1.1 h1.2 (by decide) t2
  show matchSeq boundsTailCI ("bounds=\"[".data ++ (d1 ++ ',' :: (d2 ++
    ']' :: '[' :: (d3 ++ ',' :: (d4 ++ ']' :: '"' :: w))))) = _
  unfold boundsTailCI
  rw [matchSeq_ilit_append]
  exact t1

/-- The greedy [^>]* between the attribute closing quote and the bounds
literal: the descent from the longest extent lands exactly on the bounds
attribute, because no other position in the remaining angle-bracket-free
span lets the bounds literal match. -/
theorem matchSeq_star_notGt_bounds (bt : List RItem) (d1 d2 d3 d4 w : List Char)
    (h1 : goodDigits d1) (h2 : goodDigits d2) (h3 : goodDigits d3)
    (h4 : goodDigits d4) (r : Caps × List Char)
    (hhead : ∀ c s2, (lowerC 'b' == lowerC c) = false →
      matchSeq bt (c :: s2) = none)
    (hhit : matchSeq bt
        ('b' :: 'o' :: 'u' :: 'n' :: 'd' :: 's' :: '=' :: '"' :: '[' ::
          (d1 ++ ',' :: (d2 ++ ']' :: '[' :: (d3 ++ ',' :: (d4 ++
            ']' :: '"' :: '/' :: '>' :: w))))) = some r) :
    matchSeq (.star notGt :: bt)
        (' ' :: 'b' :: 'o' :: 'u' :: 'n' :: 'd' :: 's' :: '=' :: '"' :: '[' ::
          (d1 ++ ',' :: (d2 ++ ']' :: '[' :: (d3 ++ ',' :: (d4 ++
            ']' :: '"' :: '/' :: '>' :: w))))) = some r := by
  have hS : (' ' :: 'b' :: 'o' :: 'u' :: 'n' :: 'd' :: 's' :: '=' :: '"' ::
      '[' :: (d1 ++ ',' :: (d2 ++ ']' :: '[' :: (d3 ++ ',' :: (d4 ++
        ']' :: '"' :: '/' :: '>' :: w)))) : List Char) =
      (' ' :: 'b' :: 'o' :: 'u' :: 'n' :: 'd' :: 's' :: '=' :: '"' :: '[' ::
        (d1 ++ ',' :: (d2 ++ ']' :: '[' :: (d3 ++ ',' :: (d4 ++
          [']', '"', '/']))))) ++ '>' :: w := by
    simp [List.append_assoc]
  have hbdig : ∀ (dl : List Char), (∀ x ∈ dl, digitC x = true) →
      ∀ c ∈ dl, (lowerC 'b' == lowerC c) = false := by
    intro dl hdl c hc
    rw [lowerC_digit c (hdl c hc)]
    exact digit_ne_char c (hdl c hc) (lowerC 'b') (by decide)
  have hR : ∀ c ∈ (' ' :: 'b' :: 'o' :: 'u' :: 'n' :: 'd' :: 's' :: '=' ::
      '"' :: '[' :: (d1 ++ ',' :: (d2 ++ ']' :: '[' :: (d3 ++ ',' :: (d4 ++
        [']', '"', '/']))))), notGt c = true := by
    simp only [List.forall_mem_cons, List.forall_mem_append]
    refine ⟨by decide, by decide, by decide, by decide, by decide, by decide,
      by decide, by decide, by decide, by decide,
      fun c hc => notGt_of_digit c (h1.2 c hc), by decide,
      fun c hc => notGt_of_digit c (h2.2 c hc), by decide, by decide,
      fun c hc => notGt_of_digit c (h3.2 c hc), by decide,
      fun c hc => notGt_of_digit c (h4.2 c hc), by decide, by decide,
      by decide⟩
  have hR2 : ∀ c ∈ ('o' :: 'u' :: 'n' :: 'd' :: 's' :: '=' :: '"' :: '[' ::
      (d1 ++ ',' :: (d2 ++ ']' :: '[' :: (d3 ++ ',' :: (d4 ++
        [']', '"', '/']))))), (lowerC 'b' == lowerC c) = false := by
    simp only [List.forall_mem_cons, List.forall_mem_append]
    refine ⟨by decide, by decide, by decide, by decide, by decide, by decide,
      by decide, by decide, hbdig d1 h1.2, by decide, hbdig d2 h2.2,
      by decide, by decide, hbdig d3 h3.2, by decide, hbdig d4 h4.2,
      by decide, by decide, by decide⟩
  rw [hS]
  have hrun := runLen_append_stop notGt _ '>' w hR (by decide)
  refine matchSeq_star_hit notGt bt _ 1 r ?_ ?_ ?_
  · rw [hrun]
    simp
  · intro j hj1 hj2
    rw [hrun] at hj2
    rw [List.drop_append_of_le_length hj2]
    obtain ⟨j2, rfl⟩ : ∃ j2, j = j2 + 2 := ⟨j - 2, by omega⟩
    have hdj : (' ' :: 'b' :: 'o' :: 'u' :: 'n' :: 'd' :: 's' :: '=' :: '"' ::
        '[' :: (d1 ++ ',' :: (d2 ++ ']' :: '[' :: (d3 ++ ',' :: (d4 ++
          [']', '"', '/'])))) : List Char).drop (j2 + 2) =
        (('o' :: 'u' :: 'n' :: 'd' :: 's' :: '=' :: '"' :: '[' ::
          (d1 ++ ',' :: (d2 ++ ']' :: '[' :: (d3 ++ ',' :: (d4 ++
            [']', '"', '/'])))) : List Char)).drop j2 := rfl
    rw [hdj]
    cases hd : (('o' :: 'u' :: 'n' :: 'd' :: 's' :: '=' :: '"' :: '[' ::
        (d1 ++ ',' :: (d2 ++ ']' :: '[' :: (d3 ++ ',' :: (d4 ++
          [']', '"', '/'])))) : List Char)).drop j2 with
    | nil =>
        rw [List.nil_append]
        exact hhead '>' w (by decide)
    | cons c cs =>
        have hcmem : c ∈ ('o' :: 'u' :: 'n' :: 'd' :: 's' :: '=' :: '"' ::
            '[' :: (d1 ++ ',' :: (d2 ++ ']' :: '[' :: (d3 ++ ',' :: (d4 ++
              [']', '"', '/']))))) := by
          have : c ∈ (('o' :: 'u' :: 'n' :: 'd' :: 's' :: '=' :: '"' :: '[' ::
              (d1 ++ ',' :: (d2 ++ ']' :: '[' :: (d3 ++ ',' :: (d4 ++
                [']', '"', '/'])))) : List Char)).drop j2 := by
            rw [hd]; simp
          exact List.mem_of_mem_drop this
        rw [List.cons_append]
        exact hhead c (cs ++ '>' :: w) (hR2 c hcmem)
  · have hd1 : ((' ' :: 'b' :: 'o' :: 'u' :: 'n' :: 'd' :: 's' :: '=' :: '"' ::
        '[' :: (d1 ++ ',' :: (d2 ++ ']' :: '[' :: (d3 ++ ',' :: (d4 ++
          [']', '"', '/'])))) : List Char) ++ '>' :: w).drop 1 =
        ('b' :: 'o' :: 'u' :: 'n' :: 'd' :: 's' :: '=' :: '"' :: '[' ::
          (d1 ++ ',' :: (d2 ++ ']' :: '[' :: (d3 ++ ',' :: (d4 ++
            [']', '"', '/']))))) ++ '>' :: w := rfl
    rw [hd1]
    have : (('b' :: 'o' :: 'u' :: 'n' :: 'd' :: 's' :: '=' :: '"' :: '[' ::
        (d1 ++ ',' :: (d2 ++ ']' :: '[' :: (d3 ++ ',' :: (d4 ++
          [']', '"', '/'])))) : List Char)) ++ '>' :: w =
        'b' :: 'o' :: 'u' :: 'n' :: 'd' :: 's' :: '=' :: '"' :: '[' ::
          (d1 ++ ',' :: (d2 ++ ']' :: '[' :: (d3 ++ ',' :: (d4 ++
            ']' :: '"' :: '/' :: '>' :: w)))) := by
      simp [List.append_assoc]
    rw [this]
    exact hhit

theorem beq_false_of_lowerC_beq_false (a c : Char)
    (h : (lowerC a == lowerC c) = false) : (a == c) = false := by
  rw [beq_eq_false_iff_ne] at h ⊢
  exact fun he => h (he ▸ rfl)

/-- The get_all_text pattern matched at the start of a text attribute of a
well-formed node: the match consumes through the closing quote of the
bounds value, capturing the text and the four digit strings. -/
theorem matchSeq_allText_at (t d1 d2 d3 d4 w : List Char)
    (ht : benignStr t) (h1 : goodDigits d1) (h2 : goodDigits d2)
    (h3 : goodDigits d3) (h4 : goodDigits d4) :
    matchSeq allTextItems
        ("text=\"".data ++ (t ++ (renderTail d1 d2 d3 d4 ++ w))) =
      some ([some t, some d1, some d2, some d3, some d4],
        '/' :: '>' :: w) := by
  have hhead : ∀ c s2, (lowerC 'b' == lowerC c) = false →
      matchSeq boundsTail (c :: s2) = none := by
    intro c s2 hlc
    exact matchSeq_lit_head_ne 'b' "ounds=\"[".data _ c s2
      (beq_false_of_lowerC_beq_false 'b' c hlc)
  have hhit := matchSeq_boundsTail d1 d2 d3 d4 ('/' :: '>' :: w) h1 h2 h3 h4
  have hstar := matchSeq_star_notGt_bounds boundsTail d1 d2 d3 d4 w
    h1 h2 h3 h4 ([some d1, some d2, some d3, some d4], '/' :: '>' :: w)
    hhead hhit
  have hlit : matchSeq (.lit "\"".data :: .star notGt :: boundsTail)
      ('"' :: ' ' :: 'b' :: 'o' :: 'u' :: 'n' :: 'd' :: 's' :: '=' :: '"' ::
        '[' :: (d1 ++ ',' :: (d2 ++ ']' :: '[' :: (d3 ++ ',' :: (d4 ++
          ']' :: '"' :: '/' :: '>' :: w))))) =
      some ([some d1, some d2, some d3, some d4], '/' :: '>' :: w) := by
    show matchSeq _ ("\"".data ++ (' ' :: 'b' :: 'o' :: 'u' :: 'n' :: 'd' ::
      's' :: '=' :: '"' :: '[' :: (d1 ++ ',' :: (d2 ++ ']' :: '[' ::
        (d3 ++ ',' :: (d4 ++ ']' :: '"' :: '/' :: '>' :: w)))))) = _
    rw [matchSeq_lit_append]
    exact hstar
  unfold allTextItems
  rw [matchSeq_lit_append, renderTail_append]
  exact matchSeq_capStar_exact notQuote
    (.lit "\"".data :: .star notGt :: boundsTail) t '"'
    (' ' :: 'b' :: 'o' :: 'u' :: 'n' :: 'd' :: 's' :: '=' :: '"' :: '[' ::
      (d1 ++ ',' :: (d2 ++ ']' :: '[' :: (d3 ++ ',' :: (d4 ++
        ']' :: '"' :: '/' :: '>' :: w)))))
    ([some d1, some d2, some d3, some d4], '/' :: '>' :: w)
    (fun c hc => benign_notQuote c (ht c hc)) (by decide) hlit

/-- The whole get_all_text scan over a rendered dump preceded by any junk
that cannot start a text attribute: one match per node, in document
order. -/
theorem scanAux_renderDump (l : List TextNode) (hl : ∀ n ∈ l, wfTextNode n) :
    ∀ (junk : List Char), (∀ c ∈ junk, ('t' == c) = false) → ∀ (fuel : Nat),
      junk.length + (renderDump l).length ≤ fuel →
      scanAux allTextItems fuel (junk ++ renderDump l) =
        l.map fun n =>
          [some n.t, some n.d1, some n.d2, some n.d3, some n.d4] := by
  induction l with
  | nil =>
      intro junk hj fuel hf
      show scanAux allTextItems fuel (junk ++ []) = []
      rw [List.append_nil]
      apply scanAux_of_suffix_fail
      intro c cs hsuf
      have hc : c ∈ junk := hsuf.subset (by simp)
      exact matchSeq_lit_head_ne 't' "ext=\"".data _ c cs (hj c hc)
  | cons n l' ih =>
      intro junk hj fuel hf
      have happ : "<node text=\"".data =
          "<node ".data ++ "text=\"".data := rfl
      have hsplit : junk ++ renderDump (n :: l') =
          (junk ++ "<node ".data) ++ ("text=\"".data ++
            (n.t ++ (renderTail n.d1 n.d2 n.d3 n.d4 ++ renderDump l'))) := by
        show junk ++ (renderTextNode n.t n.d1 n.d2 n.d3 n.d4 ++
          renderDump l') = _
        unfold renderTextNode
        rw [happ]
        simp [List.append_assoc]
      have hj2 : ∀ c ∈ junk ++ "<node ".data, ('t' == c) = false := by
        intro c hc
        rcases List.mem_append.mp hc with hcj | hcn
        · exact hj c hcj
        · have : c ∈ ['<', 'n', 'o', 'd', 'e', ' '] := hcn
          fin_cases this <;> decide
      have hfail2 : ∀ j, j < (junk ++ "<node ".data).length →
          matchSeq allTextItems ((junk ++ "<node ".data).drop j ++
            ("text=\"".data ++ (n.t ++ (renderTail n.d1 n.d2 n.d3 n.d4 ++
              renderDump l')))) = none := by
        intro j hjl
        cases hd : (junk ++ "<node ".data).drop j with
        | nil =>
            exfalso
            rw [List.drop_eq_nil_iff] at hd
            omega
        | cons c cs =>
            have hcmem : c ∈ junk ++ "<node ".data := by
              have : c ∈ (junk ++ "<node ".data).drop j := by
                rw [hd]; simp
              exact List.mem_of_mem_drop this
            rw [List.cons_append]
            exact matchSeq_lit_head_ne 't' "ext=\"".data _ c _ (hj2 c hcmem)
      have hnode9 : 9 ≤ (renderTextNode n.t n.d1 n.d2 n.d3 n.d4).length := by
        simp [renderTextNode, renderTail]
      have hlen : (renderDump (n :: l')).length =
          (renderTextNode n.t n.d1 n.d2 n.d3 n.d4).length +
            (renderDump l').length := by
        show (renderTextNode n.t n.d1 n.d2 n.d3 n.d4 ++
          renderDump l').length = _
        simp
      have hjl : (junk ++ "<node ".data).length = junk.length + 6 := by simp
      rw [hsplit, scanAux_skip _ _ _ fuel hfail2 (by omega)]
      obtain ⟨f, hfeq⟩ : ∃ f,
          fuel - (junk ++ "<node ".data).length = f + 1 :=
        ⟨fuel - (junk ++ "<node ".data).length - 1, by omega⟩
      rw [hfeq]
      obtain ⟨hbt, hg1, hg2, hg3, hg4⟩ := hl n (by simp)
      rw [scanAux_some allTextItems f _ _ _
        (by
          apply List.append_ne_nil_of_left_ne_nil
          decide)
        (matchSeq_allText_at n.t n.d1 n.d2 n.d3 n.d4 (renderDump l')
          hbt hg1 hg2 hg3 hg4)]
      have hstep := ih (fun m hm => hl m (by simp [hm])) ['/', '>']
        (by decide) f (by
          simp only [List.length_cons, List.length_nil]
          omega)
      show _ :: scanAux allTextItems f (['/', '>'] ++ renderDump l') = _
      rw [hstep]
      rfl

theorem filterMap_textCap (l : List TextNode) :
    (l.map fun n =>
        [some n.t, some n.d1, some n.d2, some n.d3, some n.d4]).filterMap
          textCap? =
      l.map fun n =>
        (n.t, Box.mk (parseIntDec n.d1) (parseIntDec n.d2)
          (parseIntDec n.d3) (parseIntDec n.d4)) := by
  induction l with
  | nil => rfl
  | cons n l' ih => simp [textCap?, ih]

/-! ## Case folding and attribute mismatch lemmas -/

theorem beq_char_comm (a b : Char) : (a == b) = (b == a) := by
  by_cases h : a = b
  · subst h; rfl
  · rw [beq_eq_false_iff_ne.mpr h, beq_eq_false_iff_ne.mpr fun he => h he.symm]

theorem benignChar_split (c : Char) (h : benignChar c = true) :
    (lowerC c == '"') = false ∧ (lowerC c == '>') = false ∧
      (lowerC c == '=') = false := by
  simp only [benignChar, Bool.not_eq_true', Bool.or_eq_false_iff] at h
  exact ⟨h.1.1, h.1.2, h.2⟩

theorem benign_lower_ne_quote (c : Char) (h : benignChar c = true) :
    (lowerC '"' == lowerC c) = false := by
  have h2 := (benignChar_split c h).1
  rw [show lowerC '"' = '"' from rfl, beq_char_comm]
  exact h2

theorem benign_ne_eq (c : Char) (h : benignChar c = true) :
    (lowerC '=' == lowerC c) = false := by
  have h2 := (benignChar_split c h).2.2
  rw [show lowerC '=' = '=' from rfl, beq_char_comm]
  exact h2

theorem ciEq_length (q t : List Char) (h : ciEq q t = true) :
    q.length = t.length := by
  induction q generalizing t with
  | nil => cases t with
    | nil => rfl
    | cons a as => simp [ciEq] at h
  | cons c cs ih =>
      cases t with
      | nil => simp [ciEq] at h
      | cons a as =>
          simp only [ciEq, Bool.and_eq_true] at h
          simp [ih as h.2]

theorem ciPre_of_ciEq (q t v : List Char) (h : ciEq q t = true) :
    ciPre q (t ++ v) = true := by
  induction q generalizing t with
  | nil => rfl
  | cons c cs ih =>
      cases t with
      | nil => simp [ciEq] at h
      | cons a as =>
          simp only [ciEq, Bool.and_eq_true] at h
          simp [ciPre, h.1, ih as h.2]

theorem matchSeq_ilit_of_ciEq (q t : List Char) (rest : List RItem)
    (v : List Char) (h : ciEq q t = true) :
    matchSeq (.ilit q :: rest) (t ++ v) = matchSeq rest v := by
  rw [matchSeq_ilit, if_pos (ciPre_of_ciEq q t v h), ciEq_length q t h,
    List.drop_left]

theorem matchSeq_ilit_nil_item (rest : List RItem) (s : List Char) :
    matchSeq (.ilit [] :: rest) s = matchSeq rest s := by
  rw [matchSeq_ilit]
  simp [ciPre]

theorem matchSeq_ilit_cons_step (qc : Char) (q2 : List Char)
    (rest : List RItem) (tc : Char) (X : List Char)
    (h : (lowerC qc == lowerC tc) = true) :
    matchSeq (.ilit (qc :: q2) :: rest) (tc :: X) =
      matchSeq (.ilit q2 :: rest) X := by
  rw [matchSeq_ilit, matchSeq_ilit]
  simp only [ciPre, h, Bool.true_and, List.length_cons, List.drop_succ_cons]

/-- A case-insensitive literal for the query followed by the literal for
the closing quote cannot match a quote-free value of different folded
spelling: either the literal mismatches inside the value, or it ends
before or after the closing quote, where a quote meets a non-quote. -/
theorem ilit_ciNe_fail (q t : List Char) (rest : List RItem) (v : List Char)
    (hq : ∀ c ∈ q, (lowerC c == '"') = false)
    (ht : ∀ c ∈ t, (lowerC c == '"') = false)
    (hne : ciEq q t = false) :
    matchSeq (.ilit q :: .ilit "\"".data :: rest) (t ++ '"' :: v) = none := by
  induction q generalizing t with
  | nil =>
      cases t with
      | nil => simp [ciEq] at hne
      | cons tc t2 =>
          rw [matchSeq_ilit_nil_item]
          apply matchSeq_ilit_head_ne '"' [] rest tc (t2 ++ '"' :: v)
          rw [show lowerC '"' = '"' from rfl, beq_char_comm]
          exact ht tc (by simp)
  | cons qc q2 ih =>
      cases t with
      | nil =>
          apply matchSeq_ilit_head_ne qc q2 _ '"' v
          rw [show lowerC '"' = '"' from rfl]
          exact hq qc (by simp)
      | cons tc t2 =>
          by_cases hb : (lowerC qc == lowerC tc) = true
          · rw [List.cons_append, matchSeq_ilit_cons_step qc q2 _ tc _ hb]
            refine ih t2 (fun c hc => hq c (by simp [hc]))
              (fun c hc => ht c (by simp [hc])) ?_
            simp only [ciEq, hb, Bool.true_and] at hne
            exact hne
          · have hb2 : (lowerC qc == lowerC tc) = false := by
              cases h2 : (lowerC qc == lowerC tc)
              · rfl
              · exact absurd h2 hb
            exact matchSeq_ilit_head_ne qc q2 _ tc _ hb2

/-- The case-insensitive prefix test for an attribute literal ending in
equals-quote fails against a benign value followed by its closing quote:
the literal quote can align neither inside the value nor with the closing
quote (the equals sign would have to sit on a benign character). -/
theorem ciPre_attrEnd_false (u v2 rest : List Char)
    (hu : ∀ c ∈ u, (lowerC c == '"') = false)
    (hv : benignStr v2) (hvne : v2 ≠ []) :
    ciPre (u ++ '=' :: '"' :: []) (v2 ++ '"' :: rest) = false := by
  induction u generalizing v2 with
  | nil =>
      cases v2 with
      | nil => exact absurd rfl hvne
      | cons a v3 =>
          have ha := benign_ne_eq a (hv a (by simp))
          simp [ciPre, ha]
  | cons u0 u2 ih =>
      cases v2 with
      | nil => exact absurd rfl hvne
      | cons a v3 =>
          cases v3 with
          | nil =>
              cases u2 with
              | nil =>
                  simp [ciPre,
                    show (lowerC '=' == lowerC '"') = false from by decide]
              | cons w0 w2 =>
                  have hw : (lowerC w0 == lowerC '"') = false := by
                    rw [show lowerC '"' = '"' from rfl]
                    exact hu w0 (by simp)
                  simp [ciPre, hw]
          | cons b v4 =>
              have hrec := ih (b :: v4) (fun c hc => hu c (by simp [hc]))
                (fun c hc => hv c (by simp [hc])) (by simp)
              simp only [List.cons_append, ciPre] at hrec ⊢
              simp [hrec]

theorem matchSeq_ilitAttr_inside (u : List Char) (rest : List RItem)
    (v2 rest2 : List Char) (hu : ∀ c ∈ u, (lowerC c == '"') = false)
    (hv : benignStr v2) (hvne : v2 ≠ []) :
    matchSeq (.ilit (u ++ '=' :: '"' :: []) :: rest) (v2 ++ '"' :: rest2) =
      none := by
  rw [matchSeq_ilit, ciPre_attrEnd_false u v2 rest2 hu hv hvne]
  rfl

theorem suffix_append_cases {α : Type} (l2 a b : List α)
    (h : l2 <:+ a ++ b) :
    l2 <:+ b ∨ ∃ a2, a2 <:+ a ∧ a2 ≠ [] ∧ l2 = a2 ++ b := by
  induction a with
  | nil => exact Or.inl (by simpa using h)
  | cons x a2 ih =>
      rw [List.cons_append, List.suffix_cons_iff] at h
      rcases h with h | h
      · exact Or.inr ⟨x :: a2, List.suffix_refl _, by simp, by simp [h]⟩
      · rcases ih h with h2 | ⟨a3, h3, h4, h5⟩
        · exact Or.inl h2
        · exact Or.inr ⟨a3, h3.trans (List.suffix_cons x a2), h4, h5⟩

/-! ## The tap_element exact pattern on a rendered node -/

theorem renderTail_eq_nil (d1 d2 d3 d4 : List Char) :
    renderTail d1 d2 d3 d4 =
      '"' :: ' ' :: 'b' :: 'o' :: 'u' :: 'n' :: 'd' :: 's' :: '=' :: '"' ::
        '[' :: (d1 ++ ',' :: (d2 ++ ']' :: '[' :: (d3 ++ ',' :: (d4 ++
          [']', '"', '/', '>'])))) := by
  have h := renderTail_append d1 d2 d3 d4 []
  simpa using h

theorem renderTail_forall_headfail (pc : Char) (d1 d2 d3 d4 : List Char)
    (h1 : goodDigits d1) (h2 : goodDigits d2) (h3 : goodDigits d3)
    (h4 : goodDigits d4)
    (hconc : ∀ c ∈ (['"', ' ', 'b', 'o', 'u', 'n', 'd', 's', '=', '[', ',',
      ']', '/', '>'] : List Char), (lowerC pc == lowerC c) = false)
    (hdig : ∀ c, digitC c = true → (lowerC pc == lowerC c) = false) :
    ∀ c ∈ renderTail d1 d2 d3 d4, (lowerC pc == lowerC c) = false := by
  rw [renderTail_eq_nil]
  simp only [List.forall_mem_cons, List.forall_mem_append]
  refine ⟨hconc '"' (by simp), hconc ' ' (by simp), hconc 'b' (by simp),
    hconc 'o' (by simp), hconc 'u' (by simp), hconc 'n' (by simp),
    hconc 'd' (by simp), hconc 's' (by simp), hconc '=' (by simp),
    hconc '"' (by simp), hconc '[' (by simp),
    fun c hc => hdig c (h1.2 c hc), hconc ',' (by simp),
    fun c hc => hdig c (h2.2 c hc), hconc ']' (by simp),
    hconc '[' (by simp), fun c hc => hdig c (h3.2 c hc),
    hconc ',' (by simp), fun c hc => hdig c (h4.2 c hc),
    hconc ']' (by simp), hconc '"' (by simp), hconc '/' (by simp),
    hconc '>' (by simp), by simp⟩

/-- The exact-text pattern matched at the start of the text attribute of a
rendered node whose text folds equal to the query. -/
theorem matchSeq_tapExact_at (q t d1 d2 d3 d4 w : List Char)
    (hci : ciEq q t = true) (h1 : goodDigits d1) (h2 : goodDigits d2)
    (h3 : goodDigits d3) (h4 : goodDigits d4) :
    matchSeq (tapExactItems q)
        ("text=\"".data ++ (t ++ (renderTail d1 d2 d3 d4 ++ w))) =
      some ([some d1, some d2, some d3, some d4], '/' :: '>' :: w) := by
  have hhead : ∀ c s2, (lowerC 'b' == lowerC c) = false →
      matchSeq boundsTailCI (c :: s2) = none := fun c s2 hlc =>
    matchSeq_ilit_head_ne 'b' "ounds=\"[".data _ c s2 hlc
  have hstar := matchSeq_star_notGt_bounds boundsTailCI d1 d2 d3 d4 w
    h1 h2 h3 h4 ([some d1, some d2, some d3, some d4], '/' :: '>' :: w)
    hhead (matchSeq_boundsTailCI d1 d2 d3 d4 ('/' :: '>' :: w) h1 h2 h3 h4)
  have hlit : matchSeq (.ilit "\"".data :: .star notGt :: boundsTailCI)
      ('"' :: ' ' :: 'b' :: 'o' :: 'u' :: 'n' :: 'd' :: 's' :: '=' :: '"' ::
        '[' :: (d1 ++ ',' :: (d2 ++ ']' :: '[' :: (d3 ++ ',' :: (d4 ++
          ']' :: '"' :: '/' :: '>' :: w))))) =
      some ([some d1, some d2, some d3, some d4], '/' :: '>' :: w) := by
    show matchSeq _ ("\"".data ++ (' ' :: 'b' :: 'o' :: 'u' :: 'n' :: 'd' ::
      's' :: '=' :: '"' :: '[' :: (d1 ++ ',' :: (d2 ++ ']' :: '[' ::
        (d3 ++ ',' :: (d4 ++ ']' :: '"' :: '/' :: '>' :: w)))))) = _
    rw [matchSeq_ilit_append]
    exact hstar
  unfold tapExactItems
  rw [matchSeq_ilit_append, renderTail_append,
    matchSeq_ilit_of_ciEq q t _ _ hci]
  exact hlit

/-- The exact-text pattern fails at the start of the text attribute when
the text does not fold equal to the query. -/
theorem matchSeq_tapExact_attr_fail (q t d1 d2 d3 d4 : List Char)
    (hq : benignStr q) (ht : benignStr t) (hne : ciEq q t = false) :
    matchSeq (tapExactItems q)
        ("text=\"".data ++ (t ++ renderTail d1 d2 d3 d4)) = none := by
  unfold tapExactItems
  rw [matchSeq_ilit_append, renderTail_eq_nil]
  exact ilit_ciNe_fail q t _ _
    (fun c hc => by
      rw [show ('"' : Char) = lowerC '"' from rfl, beq_char_comm]
      exact benign_lower_ne_quote c (hq c hc))
    (fun c hc => by
      rw [show ('"' : Char) = lowerC '"' from rfl, beq_char_comm]
      exact benign_lower_ne_quote c (ht c hc))
    hne

/-- With a query that does not fold equal to the text, no position of the
rendered node lets the exact pattern match. -/
theorem scanAux_tapExact_none (q t d1 d2 d3 d4 : List Char)
    (hq : benignStr q) (ht : benignStr t) (hne : ciEq q t = false)
    (h1 : goodDigits d1) (h2 : goodDigits d2) (h3 : goodDigits d3)
    (h4 : goodDigits d4) :
    ∀ fuel,
      scanAux (tapExactItems q) fuel (renderTextNode t d1 d2 d3 d4) = [] := by
  apply scanAux_of_suffix_fail
  intro c cs hsuf
  have hsuf2 : (c :: cs) <:+
      "<node text=\"".data ++ (t ++ renderTail d1 d2 d3 d4) := hsuf
  rcases suffix_append_cases _ _ _ hsuf2 with hin | ⟨a2, ha2, ha2ne, heq⟩
  · rcases suffix_append_cases _ _ _ hin with hrt | ⟨t2, ht2, ht2ne, heq2⟩
    · have hcmem : c ∈ renderTail d1 d2 d3 d4 := hrt.subset (by simp)
      exact matchSeq_ilit_head_ne 't' "ext=\"".data _ c cs
        (renderTail_forall_headfail 't' d1 d2 d3 d4 h1 h2 h3 h4 (by decide)
          (fun c2 hc2 => by
            rw [lowerC_digit c2 hc2]
            exact digit_ne_char c2 hc2 (lowerC 't') (by decide)) c hcmem)
    · rw [heq2]
      have hbt2 : benignStr t2 := fun c2 hc2 => ht c2 (ht2.subset hc2)
      rw [renderTail_eq_nil]
      exact matchSeq_ilitAttr_inside "text".data _ t2 _
        (by decide) hbt2 ht2ne
  · rw [heq]
    have hmem : a2 ∈ ("<node text=\"".data).tails :=
      (List.mem_tails _ _).mpr ha2
    have htails : ("<node text=\"".data).tails =
        ["<node text=\"".data, "node text=\"".data, "ode text=\"".data,
         "de text=\"".data, "e text=\"".data, " text=\"".data,
         "text=\"".data, "ext=\"".data, "xt=\"".data, "t=\"".data,
         "=\"".data, "\"".data, []] := by decide
    rw [htails] at hmem
    fin_cases hmem
    · exact matchSeq_ilit_head_ne 't' "ext=\"".data _ '<' _ (by decide)
    · exact matchSeq_ilit_head_ne 't' "ext=\"".data _ 'n' _ (by decide)
    · exact matchSeq_ilit_head_ne 't' "ext=\"".data _ 'o' _ (by decide)
    · exact matchSeq_ilit_head_ne 't' "ext=\"".data _ 'd' _ (by decide)
    · exact matchSeq_ilit_head_ne 't' "ext=\"".data _ 'e' _ (by decide)
    · exact matchSeq_ilit_head_ne 't' "ext=\"".data _ ' ' _ (by decide)
    · exact matchSeq_tapExact_attr_fail q t d1 d2 d3 d4 hq ht hne
    · exact matchSeq_ilit_head_ne 't' "ext=\"".data _ 'e' _ (by decide)
    · exact matchSeq_ilit_head_ne 't' "ext=\"".data _ 'x' _ (by decide)
    · have hfalse : ciPre "text=\"".data
          ('t' :: '=' :: '"' :: (t ++ renderTail d1 d2 d3 d4)) = false := by
        simp [ciPre, show (lowerC 'e' == lowerC '=') = false from by decide]
      rw [show ("t=\"".data ++ (t ++ renderTail d1 d2 d3 d4)) =
        't' :: '=' :: '"' :: (t ++ renderTail d1 d2 d3 d4) from rfl]
      unfold tapExactItems
      rw [matchSeq_ilit, hfalse]
      rfl
    · exact matchSeq_ilit_head_ne 't' "ext=\"".data _ '=' _ (by decide)
    · exact matchSeq_ilit_head_ne 't' "ext=\"".data _ '"' _ (by decide)
    · exact absurd rfl ha2ne

/-- With a query folding equal to the text, the scan finds exactly one
match, the node. -/
theorem scanAux_tapExact_found (q t d1 d2 d3 d4 : List Char)
    (hci : ciEq q t = true) (h1 : goodDigits d1) (h2 : goodDigits d2)
    (h3 : goodDigits d3) (h4 : goodDigits d4) :
    ∀ fuel, (renderTextNode t d1 d2 d3 d4).length ≤ fuel →
      scanAux (tapExactItems q) fuel (renderTextNode t d1 d2 d3 d4) =
        [[some d1, some d2, some d3, some d4]] := by
  intro fuel hf
  have hsplit : renderTextNode t d1 d2 d3 d4 =
      "<node ".data ++ ("text=\"".data ++
        (t ++ (renderTail d1 d2 d3 d4 ++ []))) := by
    show "<node text=\"".data ++ (t ++ renderTail d1 d2 d3 d4) = _
    rw [show "<node text=\"".data = "<node ".data ++ "text=\"".data from rfl]
    simp [List.append_assoc]
  have hfail : ∀ j, j < ("<node ".data).length →
      matchSeq (tapExactItems q) (("<node ".data).drop j ++
        ("text=\"".data ++ (t ++ (renderTail d1 d2 d3 d4 ++ [])))) =
        none := by
    intro j hjl
    have h6 : ("<node ".data).length = 6 := rfl
    rw [h6] at hjl
    interval_cases j
    · exact matchSeq_ilit_head_ne 't' "ext=\"".data _ '<' _ (by decide)
    · exact matchSeq_ilit_head_ne 't' "ext=\"".data _ 'n' _ (by decide)
    · exact matchSeq_ilit_head_ne 't' "ext=\"".data _ 'o' _ (by decide)
    · exact matchSeq_ilit_head_ne 't' "ext=\"".data _ 'd' _ (by decide)
    · exact matchSeq_ilit_head_ne 't' "ext=\"".data _ 'e' _ (by decide)
    · exact matchSeq_ilit_head_ne 't' "ext=\"".data _ ' ' _ (by decide)
  have hlen9 : 9 ≤ (renderTextNode t d1 d2 d3 d4).length := by
    simp [renderTextNode, renderTail]
  have h6 : ("<node ".data).length = 6 := rfl
  rw [hsplit, scanAux_skip _ _ _ fuel hfail (by omega)]
  obtain ⟨f, hfeq⟩ : ∃ f, fuel - ("<node ".data).length = f + 1 :=
    ⟨fuel - ("<node ".data).length - 1, by omega⟩
  rw [hfeq]
  rw [scanAux_some _ f _ _ _
    (by apply List.append_ne_nil_of_left_ne_nil; decide)
    (matchSeq_tapExact_at q t d1 d2 d3 d4 [] hci h1 h2 h3 h4)]
  have htail : scanAux (tapExactItems q) f ['/', '>'] = [] := by
    apply scanAux_of_suffix_fail
    intro c cs hsuf
    have hcm : c ∈ (['/', '>'] : List Char) := hsuf.subset (by simp)
    have : c = '/' ∨ c = '>' := by simpa using hcm
    rcases this with rfl | rfl
    · exact matchSeq_ilit_head_ne 't' "ext=\"".data _ '/' _ (by decide)
    · exact matchSeq_ilit_head_ne 't' "ext=\"".data _ '>' _ (by decide)
  rw [show ('/' :: '>' :: ([] : List Char)) = (['/', '>'] : List Char)
    from rfl, htail]

/-! ## The tap_element resource-id pattern on a rendered node -/

/-- On a dot-free query every compiled resource-id item is a single
case-insensitive literal, so the spliced query behaves as one
case-insensitive literal. -/
theorem matchSeq_ridItems_eq (r : List Char) (rest : List RItem) :
    ∀ s, (∀ c ∈ r, (c == '.') = false) →
      matchSeq (r.map ridItem ++ rest) s =
        matchSeq (.ilit r :: rest) s := by
  induction r with
  | nil =>
      intro s hdot
      rw [matchSeq_ilit_nil_item]
      rfl
  | cons c r2 ih =>
      intro s hdot
      have hc : ridItem c = .ilit [c] := by
        unfold ridItem
        rw [if_neg]
        simp [hdot c (by simp)]
      rw [List.map_cons, hc, List.cons_append]
      cases s with
      | nil => rw [matchSeq_ilit_at_nil, matchSeq_ilit_at_nil]
      | cons sc s2 =>
          by_cases hb : (lowerC c == lowerC sc) = true
          · rw [matchSeq_ilit_cons_step c [] _ sc s2 hb,
              matchSeq_ilit_nil_item,
              ih s2 (fun c2 hc2 => hdot c2 (by simp [hc2])),
              matchSeq_ilit_cons_step c r2 rest sc s2 hb]
          · have hb2 : (lowerC c == lowerC sc) = false := by
              cases h2 : (lowerC c == lowerC sc)
              · rfl
              · exact absurd h2 hb
            rw [matchSeq_ilit_head_ne c [] _ sc s2 hb2,
              matchSeq_ilit_head_ne c r2 rest sc s2 hb2]

theorem matchSeq_tapRid_at (r v d1 d2 d3 d4 w : List Char)
    (hdot : ∀ c ∈ r, (c == '.') = false) (hci : ciEq r v = true)
    (h1 : goodDigits d1) (h2 : goodDigits d2) (h3 : goodDigits d3)
    (h4 : goodDigits d4) :
    matchSeq (tapRidItems r)
        ("resource-id=\"".data ++ (v ++ (renderTail d1 d2 d3 d4 ++ w))) =
      some ([some d1, some d2, some d3, some d4], '/' :: '>' :: w) := by
  have hhead : ∀ c s2, (lowerC 'b' == lowerC c) = false →
      matchSeq boundsTailCI (c :: s2) = none := fun c s2 hlc =>
    matchSeq_ilit_head_ne 'b' "ounds=\"[".data _ c s2 hlc
  have hstar := matchSeq_star_notGt_bounds boundsTailCI d1 d2 d3 d4 w
    h1 h2 h3 h4 ([some d1, some d2, some d3, some d4], '/' :: '>' :: w)
    hhead (matchSeq_boundsTailCI d1 d2 d3 d4 ('/' :: '>' :: w) h1 h2 h3 h4)
  have hlit : matchSeq (.ilit "\"".data :: .star notGt :: boundsTailCI)
      ('"' :: ' ' :: 'b' :: 'o' :: 'u' :: 'n' :: 'd' :: 's' :: '=' :: '"' ::
        '[' :: (d1 ++ ',' :: (d2 ++ ']' :: '[' :: (d3 ++ ',' :: (d4 ++
          ']' :: '"' :: '/' :: '>' :: w))))) =
      some ([some d1, some d2, some d3, some d4], '/' :: '>' :: w) := by
    show matchSeq _ ("\"".data ++ (' ' :: 'b' :: 'o' :: 'u' :: 'n' :: 'd' ::
      's' :: '=' :: '"' :: '[' :: (d1 ++ ',' :: (d2 ++ ']' :: '[' ::
        (d3 ++ ',' :: (d4 ++ ']' :: '"' :: '/' :: '>' :: w)))))) = _
    rw [matchSeq_ilit_append]
    exact hstar
  unfold tapRidItems
  rw [matchSeq_ilit_append, matchSeq_ridItems_eq r _ _ hdot,
    renderTail_append, matchSeq_ilit_of_ciEq r v _ _ hci]
  exact hlit

theorem matchSeq_tapRid_attr_fail (r v d1 d2 d3 d4 : List Char)
    (hdot : ∀ c ∈ r, (c == '.') = false)
    (hrq : ∀ c ∈ r, (lowerC c == '"') = false)
    (hvq : ∀ c ∈ v, (lowerC c == '"') = false) (hne : ciEq r v = false) :
    matchSeq (tapRidItems r)
        ("resource-id=\"".data ++ (v ++ renderTail d1 d2 d3 d4)) = none := by
  unfold tapRidItems
  rw [matchSeq_ilit_append, matchSeq_ridItems_eq r _ _ hdot,
    renderTail_eq_nil]
  exact ilit_ciNe_fail r v _ _ hrq hvq hne

theorem scanAux_tapRid_none (r v d1 d2 d3 d4 : List Char)
    (hdot : ∀ c ∈ r, (c == '.') = false) (hrb : benignStr r)
    (hvb : benignStr v) (hne : ciEq r v = false) (h1 : goodDigits d1)
    (h2 : goodDigits d2) (h3 : goodDigits d3) (h4 : goodDigits d4) :
    ∀ fuel,
      scanAux (tapRidItems r) fuel (renderRidNode v d1 d2 d3 d4) = [] := by
  have hrq : ∀ c ∈ r, (lowerC c == '"') = false := by
    intro c hc
    rw [show ('"' : Char) = lowerC '"' from rfl, beq_char_comm]
    exact benign_lower_ne_quote c (hrb c hc)
  have hvq : ∀ c ∈ v, (lowerC c == '"') = false := by
    intro c hc
    rw [show ('"' : Char) = lowerC '"' from rfl, beq_char_comm]
    exact benign_lower_ne_quote c (hvb c hc)
  apply scanAux_of_suffix_fail
  intro c cs hsuf
  have hsuf2 : (c :: cs) <:+
      "<node resource-id=\"".data ++ (v ++ renderTail d1 d2 d3 d4) := hsuf
  rcases suffix_append_cases _ _ _ hsuf2 with hin | ⟨a2, ha2, ha2ne, heq⟩
  · rcases suffix_append_cases _ _ _ hin with hrt | ⟨v2, hv2, hv2ne, heq2⟩
    · have hcmem : c ∈ renderTail d1 d2 d3 d4 := hrt.subset (by simp)
      exact matchSeq_ilit_head_ne 'r' "esource-id=\"".data _ c cs
        (renderTail_forall_headfail 'r' d1 d2 d3 d4 h1 h2 h3 h4 (by decide)
          (fun c2 hc2 => by
            rw [lowerC_digit c2 hc2]
            exact digit_ne_char c2 hc2 (lowerC 'r') (by decide)) c hcmem)
    · rw [heq2]
      rw [renderTail_eq_nil]
      exact matchSeq_ilitAttr_inside "resource-id".data _ v2 _ (by decide)
        (fun c2 hc2 => hvb c2 (hv2.subset hc2)) hv2ne
  · rw [heq]
    have hmem : a2 ∈ ("<node resource-id=\"".data).tails :=
      (List.mem_tails _ _).mpr ha2
    have htails : ("<node resource-id=\"".data).tails =
        ["<node resource-id=\"".data, "node resource-id=\"".data,
         "ode resource-id=\"".data, "de resource-id=\"".data,
         "e resource-id=\"".data, " resource-id=\"".data,
         "resource-id=\"".data, "esource-id=\"".data, "source-id=\"".data,
         "ource-id=\"".data, "urce-id=\"".data, "rce-id=\"".data,
         "ce-id=\"".data, "e-id=\"".data, "-id=\"".data, "id=\"".data,
         "d=\"".data, "=\"".data, "\"".data, []] := by decide
    rw [htails] at hmem
    fin_cases hmem
    · exact matchSeq_ilit_head_ne 'r' "esource-id=\"".data _ '<' _
        (by decide)
    · exact matchSeq_ilit_head_ne 'r' "esource-id=\"".data _ 'n' _
        (by decide)
    · exact matchSeq_ilit_head_ne 'r' "esource-id=\"".data _ 'o' _
        (by decide)
    · exact matchSeq_ilit_head_ne 'r' "esource-id=\"".data _ 'd' _
        (by decide)
    · exact matchSeq_ilit_head_ne 'r' "esource-id=\"".data _ 'e' _
        (by decide)
    · exact matchSeq_ilit_head_ne 'r' "esource-id=\"".data _ ' ' _
        (by decide)
    · exact matchSeq_tapRid_attr_fail r v d1 d2 d3 d4 hdot hrq hvq hne
    · exact matchSeq_ilit_head_ne 'r' "esource-id=\"".data _ 'e' _
        (by decide)
    · exact matchSeq_ilit_head_ne 'r' "esource-id=\"".data _ 's' _
        (by decide)
    · exact matchSeq_ilit_head_ne 'r' "esource-id=\"".data _ 'o' _
        (by decide)
    · exact matchSeq_ilit_head_ne 'r' "esource-id=\"".data _ 'u' _
        (by decide)
    · have hfalse : ciPre "resource-id=\"".data
          ('r' :: 'c' :: 'e' :: '-' :: 'i' :: 'd' :: '=' :: '"' ::
            (v ++ renderTail d1 d2 d3 d4)) = false := by
        simp [ciPre, show (lowerC 'e' == lowerC 'c') = false from by decide]
      rw [show ("rce-id=\"".data ++ (v ++ renderTail d1 d2 d3 d4)) =
        'r' :: 'c' :: 'e' :: '-' :: 'i' :: 'd' :: '=' :: '"' ::
          (v ++ renderTail d1 d2 d3 d4) from rfl]
      unfold tapRidItems
      rw [matchSeq_ilit, hfalse]
      rfl
    · exact matchSeq_ilit_head_ne 'r' "esource-id=\"".data _ 'c' _
        (by decide)
    · exact matchSeq_ilit_head_ne 'r' "esource-id=\"".data _ 'e' _
        (by decide)
    · exact matchSeq_ilit_head_ne 'r' "esource-id=\"".data _ '-' _
        (by decide)
    · exact matchSeq_ilit_head_ne 'r' "esource-id=\"".data _ 'i' _
        (by decide)
    · exact matchSeq_ilit_head_ne 'r' "esource-id=\"".data _ 'd' _
        (by decide)
    · exact matchSeq_ilit_head_ne 'r' "esource-id=\"".data _ '=' _
        (by decide)
    · exact matchSeq_ilit_head_ne 'r' "esource-id=\"".data _ '"' _
        (by decide)
    · exact absurd rfl ha2ne

theorem scanAux_tapRid_found (r v d1 d2 d3 d4 : List Char)
    (hdot : ∀ c ∈ r, (c == '.') = false) (hci : ciEq r v = true)
    (h1 : goodDigits d1) (h2 : goodDigits d2) (h3 : goodDigits d3)
    (h4 : goodDigits d4) :
    ∀ fuel, (renderRidNode v d1 d2 d3 d4).length ≤ fuel →
      scanAux (tapRidItems r) fuel (renderRidNode v d1 d2 d3 d4) =
        [[some d1, some d2, some d3, some d4]] := by
  intro fuel hf
  have hsplit : renderRidNode v d1 d2 d3 d4 =
      "<node ".data ++ ("resource-id=\"".data ++
        (v ++ (renderTail d1 d2 d3 d4 ++ []))) := by
    show "<node resource-id=\"".data ++ (v ++ renderTail d1 d2 d3 d4) = _
    rw [show "<node resource-id=\"".data =
      "<node ".data ++ "resource-id=\"".data from rfl]
    simp [List.append_assoc]
  have hfail : ∀ j, j < ("<node ".data).length →
      matchSeq (tapRidItems r) (("<node ".data).drop j ++
        ("resource-id=\"".data ++ (v ++ (renderTail d1 d2 d3 d4 ++ [])))) =
        none := by
    intro j hjl
    have h6 : ("<node ".data).length = 6 := rfl
    rw [h6] at hjl
    interval_cases j
    · exact matchSeq_ilit_head_ne 'r' "esource-id=\"".data _ '<' _
        (by decide)
    · exact matchSeq_ilit_head_ne 'r' "esource-id=\"".data _ 'n' _
        (by decide)
    · exact matchSeq_ilit_head_ne 'r' "esource-id=\"".data _ 'o' _
        (by decide)
    · exact matchSeq_ilit_head_ne 'r' "esource-id=\"".data _ 'd' _
        (by decide)
    · exact matchSeq_ilit_head_ne 'r' "esource-id=\"".data _ 'e' _
        (by decide)
    · exact matchSeq_ilit_head_ne 'r' "esource-id=\"".data _ ' ' _
        (by decide)
  have hlen9 : 9 ≤ (renderRidNode v d1 d2 d3 d4).length := by
    simp [renderRidNode, renderTail]
  have h6 : ("<node ".data).length = 6 := rfl
  rw [hsplit, scanAux_skip _ _ _ fuel hfail (by omega)]
  obtain ⟨f, hfeq⟩ : ∃ f, fuel - ("<node ".data).length = f + 1 :=
    ⟨fuel - ("<node ".data).length - 1, by omega⟩
  rw [hfeq]
  rw [scanAux_some _ f _ _ _
    (by apply List.append_ne_nil_of_left_ne_nil; decide)
    (matchSeq_tapRid_at r v d1 d2 d3 d4 [] hdot hci h1 h2 h3 h4)]
  have htail : scanAux (tapRidItems r) f ['/', '>'] = [] := by
    apply scanAux_of_suffix_fail
    intro c cs hsuf
    have hcm : c ∈ (['/', '>'] : List Char) := hsuf.subset (by simp)
    have hcm2 : c = '/' ∨ c = '>' := by simpa using hcm
    rcases hcm2 with rfl | rfl
    · exact matchSeq_ilit_head_ne 'r' "esource-id=\"".data _ '/' _
        (by decide)
    · exact matchSeq_ilit_head_ne 'r' "esource-id=\"".data _ '>' _
        (by decide)
  rw [show ('/' :: '>' :: ([] : List Char)) = (['/', '>'] : List Char)
    from rfl, htail]

theorem opt_first_match (x y : Option Box) :
    (match x with | some b => some b | none => y) =
      (match (match x with | some b => some b | none => (none : Option Box))
          with
        | some b => some b
        | none => y) := by
  cases x <;> rfl

/-! ## Claim theorems -/

/-- Claim C1, counterexample: a dump with one well-formed bounds attribute
but no text attribute yields zero recognized elements, so the parser does
not recognize an Element at every bounds occurrence. -/
theorem claim_C1_counterexample :
    (execScan boundsOnlyItems noTextDump.data).length = 1 ∧
      parseSnapshot noTextDump = [] :=
  ⟨by decide, by decide⟩

/-- Claim C1, amended: an Element is recognized wherever a text attribute
is followed, within the same tag, by a well-formed bounds attribute; for
every dump consisting of k such nodes the parser returns exactly k
Elements carrying those bounds in document order.  A bounds occurrence
with no preceding text attribute in its tag yields no Element (see the
counterexample). -/
theorem claim_C1_parse_roundtrip (l : List TextNode)
    (hl : ∀ n ∈ l, wfTextNode n) :
    parseSnapshot ⟨renderDump l⟩ =
      l.map fun n =>
        (n.t, Box.mk (parseIntDec n.d1) (parseIntDec n.d2)
          (parseIntDec n.d3) (parseIntDec n.d4)) := by
  unfold parseSnapshot execScan
  have hd : (String.mk (renderDump l)).data = renderDump l := rfl
  rw [hd]
  have hscan := scanAux_renderDump l hl [] (by simp)
    ((renderDump l).length + 1) (by simp)
  simp only [List.nil_append] at hscan
  rw [hscan]
  exact filterMap_textCap l

theorem claim_C1_witness :
    parseSnapshot
        ⟨renderDump [⟨"a".data, "1".data, "2".data, "3".data, "4".data⟩,
          ⟨"b".data, "5".data, "6".data, "7".data, "8".data⟩]⟩ =
      [("a".data, ⟨1, 2, 3, 4⟩), ("b".data, ⟨5, 6, 7, 8⟩)] := by
  have h := claim_C1_parse_roundtrip
    [⟨"a".data, "1".data, "2".data, "3".data, "4".data⟩,
     ⟨"b".data, "5".data, "6".data, "7".data, "8".data⟩] (by decide)
  rw [h]
  decide

/-- Claim C2, counterexample: a run whose per-tick fingerprint sequence is
a, b, b, b with a distinct from b reports success at the 4th tick, not the
3rd: the loop demands stableCount of two, that is three consecutive equal
fingerprints. -/
theorem claim_C2_counterexample :
    ([bareDumpA, bareDumpB, bareDumpB, bareDumpB].map extractUIFingerprint =
      ["a||1,2,3,4", "b||1,2,3,4", "b||1,2,3,4", "b||1,2,3,4"]) ∧
    wait_for_ui_stable [bareDumpA, bareDumpB, bareDumpB, bareDumpB] ≠
      some 3 ∧
    wait_for_ui_stable [bareDumpA, bareDumpB, bareDumpB, bareDumpB] =
      some 4 :=
  ⟨by decide, by decide, by decide⟩

/-- Claim C2, amended: for every run whose per-tick Fingerprint sequence
begins A, B, B, B with A distinct from B and enough ticks left before the
deadline, wait_for_ui_stable reports success at the 4th tick (not the 2nd
or 3rd): stability needs two consecutive successful equality comparisons,
that is three consecutive equal fingerprints. -/
theorem claim_C2_stability_requires_three (A B : String) (h : A ≠ B)
    (rest : List String) :
    stableTicks (A :: B :: B :: B :: rest) "" 0 1 = some 4 := by
  by_cases hA : A = ""
  · subst hA
    have hB : (B == "") = false := beq_eq_false_iff_ne.mpr fun he => h he.symm
    simp [stableTicks, hB]
  · have hA2 : (A == "") = false := beq_eq_false_iff_ne.mpr hA
    have hBA : (B == A) = false := beq_eq_false_iff_ne.mpr fun he => h he.symm
    simp [stableTicks, hA2, hBA]

theorem claim_C2_witness :
    stableTicks ["a", "b", "b", "b"] "" 0 1 = some 4 :=
  claim_C2_stability_requires_three "a" "b" (by decide) []

/-- Claim C3, counterexample: when both text and resourceId are supplied,
get_element_bounds follows the text criterion, not the resourceId
criterion. -/
theorem claim_C3_counterexample :
    get_element_bounds bothDump (some "q") (some "r") 0 ≠
      get_element_bounds bothDump none (some "r") 0 ∧
    get_element_bounds bothDump (some "q") (some "r") 0 =
      get_element_bounds bothDump (some "q") none 0 :=
  ⟨by decide, by decide⟩

/-- Claim C3, amended: which criterion wins depends on the tool.
tap_element gives resourceId precedence and ignores text;
get_element_bounds gives text precedence and ignores resourceId;
is_element_visible tries text first and falls back to resourceId only when
the text search found nothing. -/
theorem claim_C3_precedence_per_tool (xml q r : String) (hq : q ≠ "")
    (hr : r ≠ "") (i : Int) (e : Bool) :
    get_element_bounds xml (some q) (some r) i =
      get_element_bounds xml (some q) none i ∧
    tap_element xml (some q) (some r) i e =
      tap_element xml none (some r) i e ∧
    is_element_visible xml (some q) (some r) =
      (match is_element_visible xml (some q) none with
        | some b => some b
        | none => is_element_visible xml none (some r)) := by
  refine ⟨?_, ?_, ?_⟩
  · rw [geb_text_eq xml q hq (some r) i, geb_text_eq xml q hq none i]
  · rw [tap_rid_shape xml r hr (some q) i e, tap_rid_shape xml r hr none i e]
  · simp only [is_element_visible, truthy_none, truthy_some_of_ne q hq,
      truthy_some_of_ne r hr, Option.getD_some, if_true, if_false,
      Bool.false_eq_true, ite_false, ite_true]
    exact opt_first_match _ _

theorem claim_C3_witness :
    get_element_bounds bothDump (some "q") (some "r") 5 =
      get_element_bounds bothDump (some "q") none 5 :=
  (claim_C3_precedence_per_tool bothDump "q" "r" (by decide) (by decide) 5
    false).1

/-- Claim C4: for a text query with a positive match count m, an index
below m selects the match of that rank in document order, and an index at
or above m yields the structured out-of-range result carrying m. -/
theorem claim_C4_index_selection (xml q : String) (hq : q ≠ "") (i : Nat)
    (hpos : 0 < (boundsMatches (gebTextItems q.data) xml.data).length) :
    (∀ hi : i < (boundsMatches (gebTextItems q.data) xml.data).length,
        get_element_bounds xml (some q) none (i : Int) =
          foundResult (boundsMatches (gebTextItems q.data) xml.data).length i
            ((boundsMatches (gebTextItems q.data) xml.data)[i])) ∧
    ((boundsMatches (gebTextItems q.data) xml.data).length ≤ i →
        get_element_bounds xml (some q) none (i : Int) =
          .outOfRange (boundsMatches (gebTextItems q.data) xml.data).length) := by
  constructor
  · intro hi
    rw [geb_text_eq xml q hq none (i : Int)]
    exact selectMatch_found _ i hi
  · intro hle
    rw [geb_text_eq xml q hq none (i : Int)]
    exact selectMatch_outOfRange _ _ hpos (by exact_mod_cast hle)

theorem claim_C4_witness :
    get_element_bounds okDump (some "OK") none ((2 : Nat) : Int) =
      .outOfRange 2 ∧
    get_element_bounds okDump (some "OK") none ((1 : Nat) : Int) =
      .found 2 1 0 20 10 10 5 25 := by
  constructor
  · have h := (claim_C4_index_selection okDump "OK" (by decide) 2
      (by decide)).2 (by decide)
    rw [h]; decide
  · have h := (claim_C4_index_selection okDump "OK" (by decide) 1
      (by decide)).1 (by decide)
    rw [h]; decide

/-- Claim C5: the fingerprint of a standard node dump is the empty string,
and it stays the empty string when a bounds coordinate changes by one
unit: the leftmost-greedy scan takes neither the optional text group nor
the optional class group, so every match of the fingerprint pattern has
undefined text and class and is discarded; the fingerprint is therefore
insensitive to the change the claim requires it to detect. -/
theorem claim_C5_fingerprint_blind :
    extractUIFingerprint fpDumpA = "" ∧ extractUIFingerprint fpDumpB = "" ∧
      fpDumpA ≠ fpDumpB :=
  ⟨by decide, by decide, by decide⟩

/-- Claim C8: every successfully located element is reported with center
Math.round((x1 + x2) / 2), Math.round((y1 + y2) / 2) of the bounds of the
selected match, as packaged by foundResult. -/
theorem claim_C8_center_formula (xml q : String) (hq : q ≠ "") (i : Nat)
    (hi : i < (boundsMatches (tapContainsItems q.data) xml.data).length) :
    tap_element xml (some q) none (i : Int) false =
      foundResult (boundsMatches (tapContainsItems q.data) xml.data).length i
        ((boundsMatches (tapContainsItems q.data) xml.data)[i]) := by
  rw [tap_contains_eq xml q hq (i : Int)]
  exact selectMatch_found _ i hi

theorem claim_C8_witness :
    tap_element submitDump (some "Submit") none ((0 : Nat) : Int) false =
      .found 1 0 100 200 200 50 200 225 := by
  have h := claim_C8_center_formula submitDump "Submit" (by decide) 0
    (by decide)
  rw [h]; decide

/-- Claim C9, counterexample: matching is not total over the queries.
The resource-id query is spliced into the pattern source unescaped, so a
regex-invalid query such as a lone opening parenthesis leaves an
unterminated group in the spliced pattern and makes new RegExp raise a
SyntaxError in the source, before any matching, at index 0 and on every
dump; both locators land in the unmodeled regex-construction region
instead of returning a structured result. -/
theorem claim_C9_counterexample :
    ridModeled "(".data = false ∧
    get_element_bounds noTextDump none (some "(") 0 = .unmodeledRegex ∧
    tap_element noTextDump none (some "(") 0 false = .unmodeledRegex :=
  ⟨by decide, by decide, by decide⟩

/-- Claim C9, amended: parsing is total, and with a nonnegative index (the
source default is zero) the locators return a structured result on every
input string, including malformed and truncated dumps, provided the
resource-id query, when one is used, stays inside the modeled regex
fragment (no metacharacter other than the dot); under that hypothesis
neither the crash outcome nor the regex-construction SyntaxError region
is reachable.  Text queries are regex-escaped by the source and need no
such hypothesis. -/
theorem claim_C9_no_throw_in_fragment (xml : String) (text rid : Option String)
    (i : Int) (hi : 0 ≤ i)
    (hrid : ridModeled (rid.getD "").data = true) :
    (get_element_bounds xml text rid i ≠ .crash ∧
      get_element_bounds xml text rid i ≠ .unmodeledRegex) ∧
    ∀ e, tap_element xml text rid i e ≠ .crash ∧
      tap_element xml text rid i e ≠ .unmodeledRegex := by
  constructor
  · unfold get_element_bounds
    rw [if_pos hrid]
    split
    · exact ⟨by simp, by simp⟩
    · split
      · exact ⟨selectMatch_ne_crash _ i hi, selectMatch_ne_unmodeled _ i⟩
      · exact ⟨selectMatch_ne_crash _ i hi, selectMatch_ne_unmodeled _ i⟩
  · intro e
    unfold tap_element
    rw [if_pos hrid]
    split
    · exact ⟨by simp, by simp⟩
    · split
      · exact ⟨selectMatch_ne_crash _ i hi, selectMatch_ne_unmodeled _ i⟩
      · split
        · exact ⟨selectMatch_ne_crash _ i hi, selectMatch_ne_unmodeled _ i⟩
        · exact ⟨selectMatch_ne_crash _ i hi, selectMatch_ne_unmodeled _ i⟩

theorem claim_C9_witness :
    (get_element_bounds "<<<truncated" (some "x") none 0 ≠ .crash ∧
      get_element_bounds "<<<truncated" (some "x") none 0 ≠
        .unmodeledRegex) ∧
    tap_element "<<<truncated" (some "x") none 0 false ≠ .crash := by
  have h := claim_C9_no_throw_in_fragment "<<<truncated" (some "x") none 0
    (by decide) (by decide)
  exact ⟨h.1, (h.2 false).1⟩

/-- Claim C10: with at least one match and a negative index, the
index >= matches.length guard does not fire and the source dereferences
matches[index], which is undefined: the operation crashes instead of
returning a structured result. -/
theorem claim_C10_negative_index (xml q : String) (hq : q ≠ "") (i : Int)
    (hneg : i < 0) :
    (0 < (boundsMatches (gebTextItems q.data) xml.data).length →
        get_element_bounds xml (some q) none i = .crash) ∧
    (0 < (boundsMatches (tapContainsItems q.data) xml.data).length →
        tap_element xml (some q) none i false = .crash) := by
  constructor
  · intro hpos
    rw [geb_text_eq xml q hq none i]
    exact selectMatch_neg_crash _ i hpos hneg
  · intro hpos
    rw [tap_contains_eq xml q hq i]
    exact selectMatch_neg_crash _ i hpos hneg

theorem claim_C10_witness :
    get_element_bounds okDump (some "OK") none (-1) = .crash :=
  (claim_C10_negative_index okDump "OK" (by decide) (-1) (by decide)).1
    (by decide)

/-- Claim C6: with exact=true, the element of a well-formed rendered node
matches iff its text equals the query text under case-insensitive
comparison: the locate result is found exactly when the folded spellings
agree, and not-found otherwise; in particular query Log does not match
text Login. -/
theorem claim_C6_exact_ci_equality (q t d1 d2 d3 d4 : List Char)
    (hqne : q ≠ []) (hq : benignStr q) (ht : benignStr t)
    (h1 : goodDigits d1) (h2 : goodDigits d2) (h3 : goodDigits d3)
    (h4 : goodDigits d4) :
    tap_element ⟨renderTextNode t d1 d2 d3 d4⟩ (some ⟨q⟩) none 0 true =
      (if ciEq q t = true then
        foundResult 1 0 (Box.mk (parseIntDec d1) (parseIntDec d2)
          (parseIntDec d3) (parseIntDec d4))
      else .notFound) := by
  have hqs : (⟨q⟩ : String) ≠ "" := by
    intro h
    exact hqne (by simpa using congrArg String.data h)
  rw [tap_exact_eq _ _ hqs 0]
  have hdq : (String.mk q).data = q := rfl
  have hdx : (String.mk (renderTextNode t d1 d2 d3 d4)).data =
      renderTextNode t d1 d2 d3 d4 := rfl
  rw [hdq, hdx]
  cases hci : ciEq q t with
  | false =>
      rw [if_neg (by simp)]
      unfold boundsMatches execScan
      rw [scanAux_tapExact_none q t d1 d2 d3 d4 hq ht hci h1 h2 h3 h4
        ((renderTextNode t d1 d2 d3 d4).length + 1)]
      rfl
  | true =>
      rw [if_pos rfl]
      unfold boundsMatches execScan
      rw [scanAux_tapExact_found q t d1 d2 d3 d4 hci h1 h2 h3 h4
        ((renderTextNode t d1 d2 d3 d4).length + 1) (by omega)]
      rfl

theorem claim_C6_witness :
    tap_element ⟨renderTextNode "Login".data "1".data "2".data "3".data
        "4".data⟩ (some ⟨"Log".data⟩) none 0 true = .notFound ∧
    tap_element ⟨renderTextNode "log".data "1".data "2".data "3".data
        "4".data⟩ (some ⟨"LOG".data⟩) none 0 true =
      .found 1 0 1 2 2 2 2 3 := by
  constructor
  · have h := claim_C6_exact_ci_equality "Log".data "Login".data "1".data
      "2".data "3".data "4".data (by decide) (by decide) (by decide)
      (by decide) (by decide) (by decide) (by decide)
    rw [h]; decide
  · have h := claim_C6_exact_ci_equality "LOG".data "log".data "1".data
      "2".data "3".data "4".data (by decide) (by decide) (by decide)
      (by decide) (by decide) (by decide) (by decide)
    rw [h]; decide

/-- Claim C7, amended: the element matches iff its resource-id value
matches the query interpreted as a case-insensitive regular expression;
for queries free of regex metacharacters this is case-insensitive (not
literal) full string equality, never partial; a dot in the query matches
any character (see the counterexample). -/
theorem claim_C7_rid_ci_equality (r v d1 d2 d3 d4 : List Char)
    (hrne : r ≠ []) (hspec : ∀ c ∈ r, regexSpecial c = false)
    (hrb : benignStr r) (hvb : benignStr v) (h1 : goodDigits d1)
    (h2 : goodDigits d2) (h3 : goodDigits d3) (h4 : goodDigits d4) :
    tap_element ⟨renderRidNode v d1 d2 d3 d4⟩ none (some ⟨r⟩) 0 false =
      (if ciEq r v = true then
        foundResult 1 0 (Box.mk (parseIntDec d1) (parseIntDec d2)
          (parseIntDec d3) (parseIntDec d4))
      else .notFound) := by
  have hdot : ∀ c ∈ r, (c == '.') = false := by
    intro c hc
    rw [beq_eq_false_iff_ne]
    intro he
    subst he
    exact absurd (hspec '.' hc) (by decide)
  have hrs : (⟨r⟩ : String) ≠ "" := by
    intro h
    exact hrne (by simpa using congrArg String.data h)
  have hm : ridModeled r = true := by
    unfold ridModeled
    rw [List.all_eq_true]
    intro c hc
    simp [hspec c hc]
  rw [tap_rid_eq _ _ hrs hm none 0 false]
  have hdr : (String.mk r).data = r := rfl
  have hdx : (String.mk (renderRidNode v d1 d2 d3 d4)).data =
      renderRidNode v d1 d2 d3 d4 := rfl
  rw [hdr, hdx]
  cases hci : ciEq r v with
  | false =>
      rw [if_neg (by simp)]
      unfold boundsMatches execScan
      rw [scanAux_tapRid_none r v d1 d2 d3 d4 hdot hrb hvb hci h1 h2 h3 h4
        ((renderRidNode v d1 d2 d3 d4).length + 1)]
      rfl
  | true =>
      rw [if_pos rfl]
      unfold boundsMatches execScan
      rw [scanAux_tapRid_found r v d1 d2 d3 d4 hdot hci h1 h2 h3 h4
        ((renderRidNode v d1 d2 d3 d4).length + 1) (by omega)]
      rfl

theorem claim_C7_witness :
    tap_element ⟨renderRidNode "a".data "1".data "2".data "3".data
        "4".data⟩ none (some ⟨"A".data⟩) 0 false =
      .found 1 0 1 2 2 2 2 3 ∧
    tap_element ⟨renderRidNode "ax".data "1".data "2".data "3".data
        "4".data⟩ none (some ⟨"ab".data⟩) 0 false = .notFound := by
  constructor
  · have h := claim_C7_rid_ci_equality "A".data "a".data "1".data "2".data
      "3".data "4".data (by decide) (by decide) (by decide) (by decide)
      (by decide) (by decide) (by decide) (by decide)
    rw [h]; decide
  · have h := claim_C7_rid_ci_equality "ab".data "ax".data "1".data
      "2".data "3".data "4".data (by decide) (by decide) (by decide)
      (by decide) (by decide) (by decide) (by decide) (by decide)
    rw [h]; decide

/-- Claim C7, counterexample: the resource-id query is spliced into the
regex unescaped and compiled with the i flag, so a.b matches aXb (dot is a
wildcard) and A matches a (case folding); identifier matching is not
literal string equality. -/
theorem claim_C7_counterexample :
    tap_element ridDump none (some "a.b") 0 false =
      .found 1 0 1 2 2 2 2 3 ∧
    tap_element ridLowerDump none (some "A") 0 false =
      .found 1 0 1 2 2 2 2 3 ∧
    ("a.b" : String) ≠ "aXb" ∧ ("A" : String) ≠ "a" :=
  ⟨by decide, by decide, by decide, by decide⟩

end AndroidMcp
